import Mathlib

/-!
# StudySync AI — verification of the chunked ingestion / generation / persistence core

A shallow embedding, in Lean 4, of the core of the StudySync AI client
(text chunker, AI provider orchestration with offline fallback generation,
model-response validation, study-bank aggregation and dual-backend
persistence), together with theorems settling the specification claims.

Embedding conventions:
* JavaScript strings are modelled by Lean `String` (all inputs of interest
  are ASCII, so UTF-16 length equals `String.length`).
* JavaScript numbers are modelled by `Nat`/`Int`/`ℚ` as appropriate; the
  few floating-point computations are modelled as exact rationals.
* `Math.random()` is modelled by an abstract stream `rs : Nat → ℚ` of draws
  together with an explicit call counter.
* `JSON.parse` (a platform builtin, not repository code) is modelled by an
  abstract `parseFn : String → Option Json` parameter.
* Network calls are modelled by a provider behaviour record: an availability
  bit and a `generate` function returning `Except` (an exception or a raw
  response string).
* Exceptions are modelled by `Except`/total functions; a Lean function being
  total is the embedding of "never throws".
-/

set_option maxRecDepth 100000

namespace StudySync

/-! ## JavaScript-style string primitives

Faithful models of the handful of string/regex operations the source uses.
`\s` is modelled by the common whitespace characters; all repository inputs
use only space, tab, CR and LF. -/

/-- JavaScript `\s` for the characters that occur in this code base. -/
def wsChar (c : Char) : Bool :=
  c = ' ' || c = '\t' || c = '\n' || c = '\r' || c = '\x0b' || c = '\x0c'

/-- `[a-zA-Z]`. -/
def asciiLetter (c : Char) : Bool :=
  ('a' ≤ c && c ≤ 'z') || ('A' ≤ c && c ≤ 'Z')

/-- `[0-9]`. -/
def asciiDigit (c : Char) : Bool :=
  '0' ≤ c && c ≤ '9'

/-- `[a-zA-Z0-9]`. -/
def alnumChar (c : Char) : Bool :=
  asciiLetter c || asciiDigit c

/-- JavaScript `\w` (`[A-Za-z0-9_]`). -/
def wordChar (c : Char) : Bool :=
  alnumChar c || c = '_'

/-- `str.trim()` on a character list. -/
def trimChars (cs : List Char) : List Char :=
  ((cs.dropWhile (wsChar ·)).reverse.dropWhile (wsChar ·)).reverse

/-- `str.trim()`. -/
def jsTrim (s : String) : String :=
  (trimChars s.data).asString

/-- Split a character list at every maximal run of characters satisfying
`sep`, keeping empty pieces (JavaScript `"a b".split(/\s+/)` keeps a leading
empty piece when the string starts with a separator, and a trailing one when
it ends with one; `"".split` gives `[""]`).  `acc` is `some` of the reversed
current piece, or `none` while inside a separator run whose piece has
already been emitted. -/
def splitRunsGo (sep : Char → Bool) : List Char → Option (List Char) →
    List (List Char)
  | [], none => [[]]
  | [], some acc => [acc.reverse]
  | c :: rest, none =>
    if sep c then splitRunsGo sep rest none
    else splitRunsGo sep rest (some [c])
  | c :: rest, some acc =>
    if sep c then acc.reverse :: splitRunsGo sep rest none
    else splitRunsGo sep rest (some (c :: acc))

/-- Split at maximal separator runs, starting with an empty current piece. -/
def splitRuns (sep : Char → Bool) (cs : List Char) : List (List Char) :=
  splitRunsGo sep cs (some [])

/-- `str.split(/re+/)` for a character-class separator, as strings. -/
def jsSplit (sep : Char → Bool) (s : String) : List String :=
  (splitRuns sep s.data).map List.asString

/-- Replace every maximal nonempty run of `sep`-characters by `repl`
(JavaScript `str.replace(/X+/g, repl)` for a character class `X`).
`inRun` records whether the previous character was a separator (so the run
has already been replaced). -/
def replaceRunsGo (sep : Char → Bool) (repl : List Char) :
    List Char → Bool → List Char
  | [], _ => []
  | c :: rest, inRun =>
    if sep c then
      (if inRun then [] else repl) ++ replaceRunsGo sep repl rest true
    else c :: replaceRunsGo sep repl rest false

/-- Replace maximal separator runs by `repl`. -/
def replaceRuns (sep : Char → Bool) (repl : List Char) (cs : List Char) :
    List Char :=
  replaceRunsGo sep repl cs false

/-- Emit a completed (reversed) separator run: runs of `n` or more become
`repl`, shorter runs are kept. -/
def emitRun (n : Nat) (repl run : List Char) : List Char :=
  if run = [] then []
  else if n ≤ run.length then repl
  else run.reverse

/-- Replace every maximal run of `n` or more `sep`-characters by `repl`,
leaving shorter runs unchanged (JavaScript `str.replace(/X{n,}/g, repl)`).
`run` accumulates the current separator run, reversed. -/
def replaceLongRunsGo (sep : Char → Bool) (n : Nat) (repl : List Char) :
    List Char → List Char → List Char
  | [], run => emitRun n repl run
  | c :: rest, run =>
    if sep c then replaceLongRunsGo sep n repl rest (c :: run)
    else emitRun n repl run ++ c :: replaceLongRunsGo sep n repl rest []

/-- Replace maximal runs of `n` or more separators by `repl`. -/
def replaceLongRuns (sep : Char → Bool) (n : Nat) (repl : List Char)
    (cs : List Char) : List Char :=
  replaceLongRunsGo sep n repl cs []

/-- `str.replace(/\r\n/g, "\n")`. -/
def replaceCRLF : List Char → List Char
  | '\r' :: '\n' :: rest => '\n' :: replaceCRLF rest
  | c :: rest => c :: replaceCRLF rest
  | [] => []

/-- Does `pat` occur at the head of `cs` (case-sensitive)? -/
def startsWithChars : List Char → List Char → Bool
  | [], _ => true
  | _ :: _, [] => false
  | p :: ps, c :: cs => p = c && startsWithChars ps cs

/-- Does `pat` occur at the head of `cs`, comparing case-insensitively? -/
def startsWithCharsCI : List Char → List Char → Bool
  | [], _ => true
  | _ :: _, [] => false
  | p :: ps, c :: cs => p.toLower = c.toLower && startsWithCharsCI ps cs

/-- Is `pat` a (case-sensitive) substring of `cs`? -/
def containsChars (pat : List Char) : List Char → Bool
  | [] => startsWithChars pat []
  | c :: cs => startsWithChars pat (c :: cs) || containsChars pat cs

/-- Is `pat` a case-insensitive substring of `cs`? -/
def containsCharsCI (pat : List Char) : List Char → Bool
  | [] => startsWithCharsCI pat []
  | c :: cs => startsWithCharsCI pat (c :: cs) || containsCharsCI pat cs

/-- Case-insensitive substring test on strings: `/pat/i.test(s)` for a
literal `pat`. -/
def icontains (s pat : String) : Bool :=
  containsCharsCI pat.data s.data

/-- `/p1|p2|.../i.test(s)` for literal alternatives. -/
def icontainsAny (s : String) (pats : List String) : Bool :=
  pats.any (icontains s ·)

/-- Replace the first occurrence of the literal substring `pat` by `repl`
(JavaScript `str.replace("pat", "repl")`); the string is returned unchanged
when `pat` does not occur. -/
def replaceFirstChars (pat repl : List Char) : List Char → List Char
  | [] => []
  | c :: cs =>
    if startsWithChars pat (c :: cs) && pat ≠ [] then
      repl ++ (c :: cs).drop pat.length
    else
      c :: replaceFirstChars pat repl cs

/-- String version of `replaceFirstChars`. -/
def jsReplaceFirst (s pat repl : String) : String :=
  (replaceFirstChars pat.data repl.data s.data).asString

/-- `str.substring(0, n)`. -/
def substringTo (s : String) (n : Nat) : String :=
  (s.data.take n).asString

/-- `s.toLowerCase()`. -/
def jsToLower (s : String) : String :=
  (s.data.map Char.toLower).asString

/-! ## Chunker (`src/utils/progress.ts`, "Text Chunking Utility")

`tokenizeText`, `findBestSplitPoint`, `chunkText`, `estimateChunkCount`,
translated clause by clause.  The `while` loop of `chunkText` is modelled
with a fuel parameter: in every terminating run of the source loop the
chunk start strictly increases and stays below the word count, so the loop
body runs at most `totalWords + 1` times and fuel `totalWords + 1` is
exact.  (For degenerate options — `overlapSize ≥ chunkSize` combined with
nearby sentence punctuation — the source loop does not terminate at all.) -/

/-- One chunk record: `{index, text, wordCount, startWord, endWord}`. -/
structure TextChunk where
  index : Nat
  text : String
  wordCount : Nat
  startWord : Nat
  endWord : Nat
  deriving Repr, DecidableEq

/-- `tokenizeText`: normalize line endings, collapse 3+ newlines to 2 and
space/tab runs to one space, trim, split on whitespace, drop empties. -/
def tokenizeText (text : String) : List String :=
  let cleaned :=
    trimChars
      (replaceRuns (fun c => c = ' ' || c = '\t') [' ']
        (replaceLongRuns (· = '\n') 3 ['\n', '\n']
          (replaceCRLF text.data)))
  ((splitRuns (wsChar ·) cleaned).map List.asString).filter
    (fun w => 0 < w.length)

/-- `/[.!?]$/.test(word)`. -/
def endsSentence (w : String) : Bool :=
  match w.data.getLast? with
  | some c => c = '.' || c = '!' || c = '?'
  | none => false

/-- `findBestSplitPoint(words, targetIndex, searchRange = 50)`: scan forward
from the target to `min(len-1, target+50)` for a word ending in `.`/`!`/`?`,
then backward from `target-1` down to `max(0, target-50)`, else fall back to
the target itself. -/
def findBestSplitPoint (words : List String) (targetIndex : Nat)
    (searchRange : Nat := 50) : Nat :=
  let minIndex := targetIndex - searchRange
  let maxIndex := min (words.length - 1) (targetIndex + searchRange)
  let fwd := (List.range' targetIndex (maxIndex + 1 - targetIndex)).find?
    (fun i => endsSentence (words.getD i ""))
  match fwd with
  | some i => i + 1
  | none =>
    let bwd := ((List.range' minIndex (targetIndex - minIndex)).reverse).find?
      (fun i => endsSentence (words.getD i ""))
    match bwd with
    | some i => i + 1
    | none => targetIndex

/-- `words.slice(a, b).join(' ')`. -/
def sliceJoin (words : List String) (a b : Nat) : String :=
  String.intercalate " " ((words.drop a).take (b - a))

/-- The `while (currentStart < totalWords)` loop of `chunkText`, with fuel.
`start` is `currentStart`, `idx` is `chunkIndex`. -/
def chunkLoop (words : List String) (chunkSize overlapSize : Nat) :
    Nat → Nat → Nat → List TextChunk
  | 0, _, _ => []
  | fuel + 1, start, idx =>
    let total := words.length
    if total ≤ start then []
    else
      let idealEnd := start + chunkSize
      if total ≤ idealEnd then
        [{ index := idx
           text := String.intercalate " " (words.drop start)
           wordCount := (words.drop start).length
           startWord := start
           endWord := total - 1 }]
      else
        let actualEnd := findBestSplitPoint words idealEnd
        let chunkWords := (words.drop start).take (actualEnd - start)
        let c : TextChunk :=
          { index := idx
            text := String.intercalate " " chunkWords
            wordCount := chunkWords.length
            startWord := start
            endWord := actualEnd - 1 }
        let next0 := actualEnd - overlapSize
        let next := if next0 ≤ start then actualEnd else next0
        c :: chunkLoop words chunkSize overlapSize fuel next (idx + 1)

/-- `chunkText(text, {chunkSize, overlapSize})` (defaults 800 / 100 in the
source). -/
def chunkText (text : String) (chunkSize : Nat := 800)
    (overlapSize : Nat := 100) : List TextChunk :=
  let words := tokenizeText text
  let totalWords := words.length
  if totalWords = 0 then []
  else if totalWords ≤ chunkSize then
    [{ index := 0
       text := String.intercalate " " words
       wordCount := totalWords
       startWord := 0
       endWord := totalWords - 1 }]
  else
    chunkLoop words chunkSize overlapSize (totalWords + 1) 0 0

/-- `estimateChunkCount`: `Math.ceil((totalWords - overlapSize) /
(chunkSize - overlapSize))` after the single-chunk shortcut.  The ceiling of
the positive rational is the rounded-up natural division; the degenerate
case `chunkSize ≤ overlapSize` (division by zero or a negative, `Infinity`
in JavaScript) is not representable and yields 0 here. -/
def estimateChunkCount (text : String) (chunkSize : Nat := 800)
    (overlapSize : Nat := 100) : Nat :=
  let totalWords := (tokenizeText text).length
  if totalWords ≤ chunkSize then 1
  else
    let effectiveChunkSize := chunkSize - overlapSize
    (totalWords - overlapSize + (effectiveChunkSize - 1)) / effectiveChunkSize

/-! ### Concrete chunker inputs used by counterexamples and witnesses -/

/-- 56 whitespace-separated words; the only sentence-ending word is at
index 54, exactly `searchRange` words past the ideal end of the first
chunk for `chunkSize = 4`. -/
def sentenceAt54 : String :=
  String.intercalate " " (List.replicate 54 "w" ++ ["w."] ++ ["w"])

/-- 30 words with a single sentence end at index 20: the split-point
search stretches the first chunk past two ideal ends, so the actual chunk
count drops below the arithmetic estimate. -/
def punctAt20 : String :=
  String.intercalate " "
    (List.replicate 20 "w" ++ ["w."] ++ List.replicate 9 "w")

/-! ## JSON values

`JSON.parse` output is modelled by an inductive of JSON values;
JavaScript property access, truthiness and `x || d` follow. -/

/-- A parsed JSON value.  (`JSON.parse` keeps the last of duplicate object
keys, see `jGet`.) -/
inductive Json where
  | null
  | bool (b : Bool)
  | num (q : ℚ)
  | str (s : String)
  | arr (elems : List Json)
  | obj (fields : List (String × Json))

mutual

/-- Boolean equality of JSON values. -/
def jsonBeq : Json → Json → Bool
  | .null, .null => true
  | .bool a, .bool b => a = b
  | .num a, .num b => a = b
  | .str a, .str b => a = b
  | .arr as, .arr bs => jsonBeqList as bs
  | .obj as, .obj bs => jsonBeqFields as bs
  | _, _ => false

/-- Boolean equality of JSON arrays. -/
def jsonBeqList : List Json → List Json → Bool
  | [], [] => true
  | a :: as, b :: bs => jsonBeq a b && jsonBeqList as bs
  | _, _ => false

/-- Boolean equality of JSON object field lists. -/
def jsonBeqFields : List (String × Json) → List (String × Json) → Bool
  | [], [] => true
  | (k1, v1) :: as, (k2, v2) :: bs =>
    k1 = k2 && jsonBeq v1 v2 && jsonBeqFields as bs
  | _, _ => false

end

mutual

theorem jsonBeq_refl : ∀ a : Json, jsonBeq a a = true
  | .null => rfl
  | .bool a => by simp [jsonBeq]
  | .num a => by simp [jsonBeq]
  | .str a => by simp [jsonBeq]
  | .arr as => by rw [jsonBeq]; exact jsonBeqList_refl as
  | .obj as => by rw [jsonBeq]; exact jsonBeqFields_refl as

theorem jsonBeqList_refl : ∀ l : List Json, jsonBeqList l l = true
  | [] => rfl
  | a :: as => by
    rw [jsonBeqList, jsonBeq_refl a, jsonBeqList_refl as]
    rfl

theorem jsonBeqFields_refl : ∀ l : List (String × Json),
    jsonBeqFields l l = true
  | [] => rfl
  | (k, v) :: as => by
    rw [jsonBeqFields, jsonBeq_refl v, jsonBeqFields_refl as]
    simp

end

mutual

theorem jsonBeq_eq : ∀ a b : Json, jsonBeq a b = true → a = b
  | .null, .null, _ => rfl
  | .bool a, .bool b, h => by
    rw [jsonBeq] at h
    simp only [decide_eq_true_eq] at h
    rw [h]
  | .num a, .num b, h => by
    rw [jsonBeq] at h
    simp only [decide_eq_true_eq] at h
    rw [h]
  | .str a, .str b, h => by
    rw [jsonBeq] at h
    simp only [decide_eq_true_eq] at h
    rw [h]
  | .arr as, .arr bs, h => by
    rw [jsonBeq] at h
    rw [jsonBeqList_eq as bs h]
  | .obj as, .obj bs, h => by
    rw [jsonBeq] at h
    rw [jsonBeqFields_eq as bs h]
  | .null, .bool _, h => by simp [jsonBeq] at h
  | .null, .num _, h => by simp [jsonBeq] at h
  | .null, .str _, h => by simp [jsonBeq] at h
  | .null, .arr _, h => by simp [jsonBeq] at h
  | .null, .obj _, h => by simp [jsonBeq] at h
  | .bool _, .null, h => by simp [jsonBeq] at h
  | .bool _, .num _, h => by simp [jsonBeq] at h
  | .bool _, .str _, h => by simp [jsonBeq] at h
  | .bool _, .arr _, h => by simp [jsonBeq] at h
  | .bool _, .obj _, h => by simp [jsonBeq] at h
  | .num _, .null, h => by simp [jsonBeq] at h
  | .num _, .bool _, h => by simp [jsonBeq] at h
  | .num _, .str _, h => by simp [jsonBeq] at h
  | .num _, .arr _, h => by simp [jsonBeq] at h
  | .num _, .obj _, h => by simp [jsonBeq] at h
  | .str _, .null, h => by simp [jsonBeq] at h
  | .str _, .bool _, h => by simp [jsonBeq] at h
  | .str _, .num _, h => by simp [jsonBeq] at h
  | .str _, .arr _, h => by simp [jsonBeq] at h
  | .str _, .obj _, h => by simp [jsonBeq] at h
  | .arr _, .null, h => by simp [jsonBeq] at h
  | .arr _, .bool _, h => by simp [jsonBeq] at h
  | .arr _, .num _, h => by simp [jsonBeq] at h
  | .arr _, .str _, h => by simp [jsonBeq] at h
  | .arr _, .obj _, h => by simp [jsonBeq] at h
  | .obj _, .null, h => by simp [jsonBeq] at h
  | .obj _, .bool _, h => by simp [jsonBeq] at h
  | .obj _, .num _, h => by simp [jsonBeq] at h
  | .obj _, .str _, h => by simp [jsonBeq] at h
  | .obj _, .arr _, h => by simp [jsonBeq] at h

theorem jsonBeqList_eq : ∀ as bs : List Json,
    jsonBeqList as bs = true → as = bs
  | [], [], _ => rfl
  | a :: as, b :: bs, h => by
    rw [jsonBeqList] at h
    simp only [Bool.and_eq_true] at h
    rw [jsonBeq_eq a b h.1, jsonBeqList_eq as bs h.2]
  | [], _ :: _, h => by simp [jsonBeqList] at h
  | _ :: _, [], h => by simp [jsonBeqList] at h

theorem jsonBeqFields_eq : ∀ as bs : List (String × Json),
    jsonBeqFields as bs = true → as = bs
  | [], [], _ => rfl
  | (k1, v1) :: as, (k2, v2) :: bs, h => by
    rw [jsonBeqFields] at h
    simp only [Bool.and_eq_true, decide_eq_true_eq] at h
    rw [h.1.1, jsonBeq_eq v1 v2 h.1.2, jsonBeqFields_eq as bs h.2]
  | [], _ :: _, h => by simp [jsonBeqFields] at h
  | _ :: _, [], h => by simp [jsonBeqFields] at h

end

instance : DecidableEq Json := fun a b =>
  decidable_of_iff (jsonBeq a b = true)
    ⟨jsonBeq_eq a b, fun h => h ▸ jsonBeq_refl a⟩

/-- Property access `j.k`: `none` models JavaScript `undefined` (absent
property, or access on a primitive); duplicate keys resolve to the last. -/
def jGet : Json → String → Option Json
  | .obj fields, k => (fields.reverse.find? (fun p => p.1 = k)).map (·.2)
  | _, _ => none

/-- JavaScript truthiness of a possibly-absent JSON value. -/
def truthy : Option Json → Bool
  | none => false
  | some .null => false
  | some (.bool b) => b
  | some (.num q) => decide (q ≠ 0)
  | some (.str s) => decide (s ≠ "")
  | some (.arr _) => true
  | some (.obj _) => true

/-- JavaScript `x || d` for a possibly-absent value. -/
def jOr (x : Option Json) (d : Json) : Json :=
  if truthy x then x.getD d else d

/-- The elements of an array value, `[]` otherwise. -/
def jArrD : Option Json → List Json
  | some (.arr l) => l
  | _ => []

/-! ## Study items and chunk results

Field values are JSON values: the source is untyped JavaScript and the
response validator copies model-supplied values verbatim, so `Json` is the
honest value universe; the offline generator always produces `.str`/`.num`
values.  (`src/types.ts` is not part of the sources; the field layout
follows the data-model section of the specification and the uses in
`StudyContext.tsx`.) -/

/-- A flashcard before id / chunk-index assignment. -/
structure Flashcard0 where
  question : Json
  answer : Json
  deriving DecidableEq

/-- A multiple-choice question before id / chunk-index assignment. -/
structure MCQ0 where
  question : Json
  options : List Json
  correctIndex : Json
  explanation : Json
  deriving DecidableEq

/-- A fill-in-the-blank item before id / chunk-index assignment;
`explanation` is an optional field. -/
structure FillBlank0 where
  sentence : Json
  answer : Json
  explanation : Option Json
  deriving DecidableEq

/-- A short-answer item before id / chunk-index assignment. -/
structure ShortAnswer0 where
  question : Json
  suggestedAnswer : Json
  deriving DecidableEq

/-- `GeneratedContent` / `ChunkResult`: the four item collections returned
by generation for one chunk. -/
structure GeneratedContent where
  flashcards : List Flashcard0
  mcqs : List MCQ0
  fillBlanks : List FillBlank0
  shortAnswers : List ShortAnswer0
  deriving DecidableEq

/-- The all-empty chunk result. -/
def emptyGC : GeneratedContent := ⟨[], [], [], []⟩

/-- Total number of parsed items, as summed in `processChunk`. -/
def GeneratedContent.totalItems (g : GeneratedContent) : Nat :=
  g.flashcards.length + g.mcqs.length + g.fillBlanks.length +
    g.shortAnswers.length

/-! ## Randomness

`Math.random()` is modelled by an abstract stream `rs : Nat → ℚ` of draws
(each in `[0,1)` for a faithful run) consumed at an explicit counter. -/

/-- `Math.floor(Math.random() * n)` for the `k`-th draw. -/
def randFloor (rs : Nat → ℚ) (k n : Nat) : Nat :=
  (Rat.floor (rs k * n)).toNat

/-- `options[j], options[r] = options[r], options[j]`. -/
def listSwap (l : List String) (i j : Nat) : List String :=
  match l.get? i, l.get? j with
  | some a, some b => (l.set i b).set j a
  | _, _ => l

/-- The in-place Fisher–Yates loop
`for (j = len-1; j > 0; j--) { r = floor(random()*(j+1)); swap }`,
returning the shuffled list and the advanced draw counter. -/
def shuffleGo (rs : Nat → ℚ) : List String → Nat → Nat → List String × Nat
  | l, k, 0 => (l, k)
  | l, k, j + 1 =>
    let r := randFloor rs k (j + 1 + 1)
    shuffleGo rs (listSwap l (j + 1) r) (k + 1) j

/-- Shuffle a list starting from draw counter `k`. -/
def shuffle (rs : Nat → ℚ) (k : Nat) (l : List String) :
    List String × Nat :=
  shuffleGo rs l k (l.length - 1)

/-- `list.indexOf(x)` (−1 when absent). -/
def jsIndexOf (l : List String) (x : String) : Int :=
  match l.findIdx? (· = x) with
  | some i => (i : Int)
  | none => -1

/-- Split `/(?<=[.!?])\s+/`: a maximal whitespace run directly after a
sentence-ending character separates pieces; the punctuation stays with the
piece before it.  `acc` is `some` of the reversed current piece, `none`
while inside a separator run. -/
def splitAfterPunctGo : List Char → Option (List Char) → List (List Char)
  | [], none => [[]]
  | [], some acc => [acc.reverse]
  | c :: rest, none =>
    if wsChar c then splitAfterPunctGo rest none
    else splitAfterPunctGo rest (some [c])
  | c :: rest, some acc =>
    if wsChar c &&
        (match acc.head? with
         | some p => p = '.' || p = '!' || p = '?'
         | none => false) then
      acc.reverse :: splitAfterPunctGo rest none
    else splitAfterPunctGo rest (some (c :: acc))

/-- Case-insensitive whole-word replacement:
`sentence.replace(new RegExp('\\b' + word + '\\b', 'i'), repl)` for an
alphanumeric `word` (word boundaries are checked against `\w`). -/
def replaceWordCIGo (w repl : List Char) :
    Option Char → List Char → List Char
  | _, [] => []
  | prev, c :: cs =>
    if startsWithCharsCI w (c :: cs) && !w.isEmpty &&
        (match prev with
         | some p => !wordChar p
         | none => true) &&
        (match (c :: cs).drop w.length with
         | d :: _ => !wordChar d
         | [] => true) then
      repl ++ (c :: cs).drop w.length
    else c :: replaceWordCIGo w repl (some c) cs

/-- String version of `replaceWordCIGo`, from the start of the string. -/
def replaceWordCI (s w repl : String) : String :=
  (replaceWordCIGo w.data repl.data none s.data).asString

namespace AIAdapter

/-! ## Fallback generator (`src/utils/aiAdapter.ts`)

`extractSentences`, `extractImportantWords`, `generateFallbackContent`
from the AI adapter, translated clause by clause. -/

/-- `extractSentences`: normalize newlines (2+ newlines become `". "`, then
every newline a space, whitespace runs a single space, trim), split after
sentence punctuation and keep pieces of length in `(15, 600)`; if none
qualify, re-split on `.`/newline runs and keep pieces longer than 10. -/
def extractSentences (text : String) : List String :=
  let cleaned :=
    trimChars
      (replaceRuns (wsChar ·) [' ']
        ((replaceLongRuns (· = '\n') 2 ['.', ' ']
            (replaceCRLF text.data)).map
          (fun c => if c = '\n' then ' ' else c)))
  let sentences :=
    ((splitAfterPunctGo cleaned (some [])).map
        (fun p => jsTrim p.asString)).filter
      (fun s => 15 < s.length && s.length < 600)
  if 0 < sentences.length then sentences
  else
    ((splitRuns (fun c => c = '.' || c = '\n') cleaned).map
        (fun p => jsTrim p.asString)).filter
      (fun s => 10 < s.length)

/-- The fixed stop-word set of the fallback generator. -/
def stopWords : List String :=
  ["the", "a", "an", "is", "are", "was", "were", "be", "been", "being",
   "have", "has", "had", "do", "does", "did", "will", "would", "could",
   "should", "may", "might", "must", "to", "of", "in", "for", "on", "with",
   "at", "by", "from", "as", "into", "through", "during", "before", "after",
   "and", "but", "if", "or", "because", "this", "that", "these", "those",
   "it", "its", "they", "them", "their", "what", "which", "who", "whom"]

/-- `extractImportantWords`: strip non-alphanumerics to spaces, split on
whitespace, keep words longer than 3 characters that are not stop words. -/
def extractImportantWords (sentence : String) : List String :=
  let replaced :=
    sentence.data.map (fun c => if alnumChar c || wsChar c then c else ' ')
  ((splitRuns (wsChar ·) replaced).map List.asString).filter
    (fun w => 3 < w.length && !(stopWords.contains (jsToLower w)))

/-- The flashcard loop of `generateFallbackContent`: up to 25 cards, one
per sentence with at least one important word. -/
def fbFlashcardsGo : List String → List Flashcard0 → List Flashcard0
  | [], acc => acc
  | s :: rest, acc =>
    if acc.length < 25 then
      let words := extractImportantWords s
      if 0 < words.length then
        fbFlashcardsGo rest
          (acc ++ [⟨.str ("What do you know about: " ++
              String.intercalate ", " (words.take 2) ++ "?"), .str s⟩])
      else fbFlashcardsGo rest acc
    else acc

/-- The fill-in-the-blank loop: up to 15 items; one random draw per
sentence with important words selects which of the first three words to
blank; the item is kept only if the whole-word replacement changed the
sentence. -/
def fbFillBlanksGo (rs : Nat → ℚ) :
    List String → Nat → List FillBlank0 → List FillBlank0 × Nat
  | [], k, acc => (acc, k)
  | s :: rest, k, acc =>
    if acc.length < 15 then
      let words := extractImportantWords s
      if 0 < words.length then
        let wordToRemove := words.getD (randFloor rs k (min 3 words.length)) ""
        let blanked := replaceWordCI s wordToRemove "_____"
        if blanked ≠ s then
          fbFillBlanksGo rs rest (k + 1)
            (acc ++ [⟨.str blanked, .str wordToRemove, some (.str "")⟩])
        else fbFillBlanksGo rs rest (k + 1) acc
      else fbFillBlanksGo rs rest k acc
    else (acc, k)

/-- The `while (wrongOptions.length < 3) wrongOptions.push("Option " +
(wrongOptions.length + 1))` padding loop (at most three pushes). -/
def padOptionsGo : Nat → List String → List String
  | 0, l => l
  | f + 1, l =>
    if l.length < 3 then
      padOptionsGo f (l ++ ["Option " ++ toString (l.length + 1)])
    else l

/-- Pad distractors to three entries. -/
def padOptions (l : List String) : List String := padOptionsGo 3 l

/-- The MCQ loop: up to 10 questions from sentences with at least four
important words; the first is correct, the next three are distractors, the
four options are Fisher–Yates-shuffled (three draws). -/
def fbMcqsGo (rs : Nat → ℚ) :
    List String → Nat → List MCQ0 → List MCQ0 × Nat
  | [], k, acc => (acc, k)
  | s :: rest, k, acc =>
    if acc.length < 10 then
      let words := extractImportantWords s
      if 4 ≤ words.length then
        let correctWord := words.getD 0 ""
        let wrongOptions := padOptions ((words.drop 1).take 3)
        let res := shuffle rs k (correctWord :: wrongOptions)
        fbMcqsGo rs rest res.2
          (acc ++ [⟨.str ("Which term is most relevant to: \"" ++
              substringTo s 60 ++ "...\"?"),
            res.1.map .str,
            .num ((jsIndexOf res.1 correctWord : Int) : ℚ),
            .str s⟩])
      else fbMcqsGo rs rest k acc
    else (acc, k)

/-- The short-answer loop: up to 8 items, one per sentence with important
words. -/
def fbShortGo : List String → List ShortAnswer0 → List ShortAnswer0
  | [], acc => acc
  | s :: rest, acc =>
    if acc.length < 8 then
      let words := extractImportantWords s
      if 0 < words.length then
        fbShortGo rest
          (acc ++ [⟨.str ("Explain the concept: " ++
              String.intercalate " " (words.take 2)), .str s⟩])
      else fbShortGo rest acc
    else acc

/-- `generateFallbackContent`: the pure offline generator.  The four loops
run in source order; the random counter threads from the fill-in-the-blank
loop into the MCQ loop. -/
def generateFallbackContent (rs : Nat → ℚ) (text : String) :
    GeneratedContent :=
  let sentences := extractSentences text
  let flashcards := fbFlashcardsGo sentences []
  let fbRes := fbFillBlanksGo rs sentences 0 []
  let mcqRes := fbMcqsGo rs sentences fbRes.2 []
  let shortAnswers := fbShortGo sentences []
  ⟨flashcards, mcqRes.1, fbRes.1, shortAnswers⟩

/-! ## Response validation (`parseAIResponse`)

Strip Markdown fences, extract the first-`{`-to-last-`}` substring, parse
(abstractly), then validate the four arrays.  A `null` array element makes
the JavaScript property access throw; the exception is caught by the outer
`try`, freezing the arrays assigned so far — the validators below return
`Except` to model that. -/

/-- `str.replace(/LIT\s*/g, "")` for a literal `LIT`: `dropN` counts
characters of a matched literal still to discard, `ws` marks the trailing
`\s*` of a match being consumed. -/
def stripLitWsGo (lit : List Char) : List Char → Nat → Bool → List Char
  | [], _, _ => []
  | _ :: cs, dropN + 1, ws => stripLitWsGo lit cs dropN ws
  | c :: cs, 0, ws =>
    if ws && wsChar c then stripLitWsGo lit cs 0 true
    else if startsWithChars lit (c :: cs) && !lit.isEmpty then
      stripLitWsGo lit cs (lit.length - 1) true
    else c :: stripLitWsGo lit cs 0 false

/-- Remove every occurrence of the literal followed by optional
whitespace. -/
def stripLitWs (lit : String) (cs : List Char) : List Char :=
  stripLitWsGo lit.data cs 0 false

/-- The last index of `c` in `l`. -/
def lastIdxOf (c : Char) (l : List Char) : Option Nat :=
  match l.reverse.findIdx? (· = c) with
  | some r => some (l.length - 1 - r)
  | none => none

/-- `jsonStr.match(/\{[\s\S]*\}/)`: the substring from the first `{` to the
last `}`, when the `}` comes after the `{`. -/
def braceMatch (cs : List Char) : Option (List Char) :=
  match cs.findIdx? (· = '{') with
  | none => none
  | some i =>
    let tail := cs.drop i
    match lastIdxOf '}' tail with
    | some j => if 1 ≤ j then some (tail.take (j + 1)) else none
    | none => none

/-- The fence-stripping and brace-extraction stage of `parseAIResponse`. -/
def extractJsonCandidate (response : String) : Option String :=
  (braceMatch
      (stripLitWs "```"
        (stripLitWs "```json" (jsTrim response).data))).map List.asString

/-- The flashcard filter predicate: `f.question && f.answer`. -/
def flashKeep (f : Json) : Bool :=
  truthy (jGet f "question") && truthy (jGet f "answer")

/-- The flashcard mapping `{question: f.question, answer: f.answer}`. -/
def flashOf (f : Json) : Flashcard0 :=
  ⟨(jGet f "question").getD .null, (jGet f "answer").getD .null⟩

/-- The MCQ filter predicate:
`m.question && Array.isArray(m.options) && m.options.length >= 2`. -/
def mcqKeep (m : Json) : Bool :=
  truthy (jGet m "question") &&
    (match jGet m "options" with
     | some (.arr os) => decide (2 ≤ os.length)
     | _ => false)

/-- The MCQ mapping: options verbatim,
`correctIndex` kept only when it is a number (else 0), `explanation`
defaulted to the empty string. -/
def mcqOf (m : Json) : MCQ0 :=
  ⟨(jGet m "question").getD .null,
    jArrD (jGet m "options"),
    (match jGet m "correctIndex" with
     | some (.num q) => .num q
     | _ => .num 0),
    jOr (jGet m "explanation") (.str "")⟩

/-- The fill-in-the-blank filter predicate: `f.sentence && f.answer`. -/
def fillKeep (f : Json) : Bool :=
  truthy (jGet f "sentence") && truthy (jGet f "answer")

/-- The fill-in-the-blank mapping, `explanation` defaulted to `""`. -/
def fillOf (f : Json) : FillBlank0 :=
  ⟨(jGet f "sentence").getD .null, (jGet f "answer").getD .null,
    some (jOr (jGet f "explanation") (.str ""))⟩

/-- The short-answer filter predicate: `s.question`. -/
def shortKeep (s : Json) : Bool :=
  truthy (jGet s "question")

/-- The short-answer mapping, `suggestedAnswer` defaulted to `""`. -/
def shortOf (s : Json) : ShortAnswer0 :=
  ⟨(jGet s "question").getD .null, jOr (jGet s "suggestedAnswer") (.str "")⟩

/-- Validate `parsed.flashcards`: keep entries with truthy `question` and
`answer`; a `null` element throws (property access on `null`). -/
def vFlashList : List Json → Except Unit (List Flashcard0)
  | [] => .ok []
  | f :: fs =>
    if f = Json.null then .error ()
    else if flashKeep f then
      match vFlashList fs with
      | .error e => .error e
      | .ok rest => .ok (flashOf f :: rest)
    else vFlashList fs

/-- Validate `parsed.mcqs`: keep entries with truthy `question` and an
options array of length ≥ 2; a non-number `correctIndex` becomes 0, a falsy
`explanation` the empty string. -/
def vMcqList : List Json → Except Unit (List MCQ0)
  | [] => .ok []
  | m :: ms =>
    if m = Json.null then .error ()
    else if mcqKeep m then
      match vMcqList ms with
      | .error e => .error e
      | .ok rest => .ok (mcqOf m :: rest)
    else vMcqList ms

/-- Validate `parsed.fillBlanks`: keep entries with truthy `sentence` and
`answer`; a falsy `explanation` becomes the empty string. -/
def vFillList : List Json → Except Unit (List FillBlank0)
  | [] => .ok []
  | f :: fs =>
    if f = Json.null then .error ()
    else if fillKeep f then
      match vFillList fs with
      | .error e => .error e
      | .ok rest => .ok (fillOf f :: rest)
    else vFillList fs

/-- Validate `parsed.shortAnswers`: keep entries with truthy `question`;
a falsy `suggestedAnswer` becomes the empty string. -/
def vShortList : List Json → Except Unit (List ShortAnswer0)
  | [] => .ok []
  | s :: ss =>
    if s = Json.null then .error ()
    else if shortKeep s then
      match vShortList ss with
      | .error e => .error e
      | .ok rest => .ok (shortOf s :: rest)
    else vShortList ss

/-- The four `if (Array.isArray(...))` validation blocks, run in source
order on the mutable result record: an exception freezes the arrays
assigned so far. -/
def parseValidate (parsed : Json) : GeneratedContent :=
  let flR :=
    match jGet parsed "flashcards" with
    | some (.arr fs) => vFlashList fs
    | _ => .ok []
  match flR with
  | .error _ => emptyGC
  | .ok flash =>
    let mcR :=
      match jGet parsed "mcqs" with
      | some (.arr ms) => vMcqList ms
      | _ => .ok []
    match mcR with
    | .error _ => ⟨flash, [], [], []⟩
    | .ok mcqs =>
      let fiR :=
        match jGet parsed "fillBlanks" with
        | some (.arr l) => vFillList l
        | _ => .ok []
      match fiR with
      | .error _ => ⟨flash, mcqs, [], []⟩
      | .ok fills =>
        let shR :=
          match jGet parsed "shortAnswers" with
          | some (.arr l) => vShortList l
          | _ => .ok []
        match shR with
        | .error _ => ⟨flash, mcqs, fills, []⟩
        | .ok shorts => ⟨flash, mcqs, fills, shorts⟩

/-- `parseAIResponse(response)`: never throws; any failure (no brace
match, unparsable JSON) yields the all-empty result; `parseFn` is the
abstract `JSON.parse`. -/
def parseAIResponse (parseFn : String → Option Json) (response : String) :
    GeneratedContent :=
  match extractJsonCandidate response with
  | none => emptyGC
  | some m =>
    match parseFn m with
    | none => emptyGC
    | some parsed => parseValidate parsed

/-! ## Orchestration (`processChunk` in `aiAdapter.ts`) -/

/-- A provider behaviour: the availability-probe answer and the outcome of
`generate` on a prompt (an exception or a raw response). -/
structure Provider where
  available : Bool
  generate : String → Except String String

/-- `getStudyMaterialsPrompt`: the fixed task prompt with optional custom
instructions. -/
def getStudyMaterialsPrompt (userInstructions text : String) : String :=
  let additionalContext :=
    if userInstructions ≠ "" then "\nUSER NOTES: " ++ userInstructions
    else ""
  "You are an expert educator. Generate study materials for this topic." ++
    additionalContext ++
    "\n\nTOPIC: " ++ text ++
    "\n\nRules:\n- If just a topic name, use your knowledge\n" ++
    "- Create exam-quality questions\n- Be concise but educational\n\n" ++
    "Return ONLY this JSON format:\n\x7b\n" ++
    "  \"flashcards\": [\x7b\"question\": \"Q\", \"answer\": \"A (2-3 sentences)\"\x7d],\n" ++
    "  \"mcqs\": [\x7b\"question\": \"Q\", \"options\": [\"A\",\"B\",\"C\",\"D\"], \"correctIndex\": 0, \"explanation\": \"Why A is correct\"\x7d],\n" ++
    "  \"fillBlanks\": [\x7b\"sentence\": \"Text with _____\", \"answer\": \"word\", \"explanation\": \"Brief context\"\x7d],\n" ++
    "  \"shortAnswers\": [\x7b\"question\": \"Q requiring analysis\", \"suggestedAnswer\": \"Model answer\"\x7d]\n\x7d\n\n" ++
    "GENERATE: 12 flashcards, 6 MCQs, 6 fill-blanks, 4 short answers.\n" ++
    "OUTPUT: Valid JSON only, no markdown."

/-- `processChunk(text, chunkIndex, totalChunks)` of the AI adapter: skip
short chunks with an empty result; otherwise probe availability, generate,
parse; an unavailable provider or a generation error falls back to the
offline generator, as does an empty parse.  Totality of this function is
the "never throws" contract. -/
def processChunk (userInstructions : String) (p : Provider)
    (parseFn : String → Option Json) (rs : Nat → ℚ) (text : String)
    (chunkIndex totalChunks : Nat) : GeneratedContent :=
  if (jsTrim text).length < 50 then emptyGC
  else
    let prompt := getStudyMaterialsPrompt userInstructions text
    if !p.available then generateFallbackContent rs text
    else
      match p.generate prompt with
      | .error _ => generateFallbackContent rs text
      | .ok response =>
        let parsed := parseAIResponse parseFn response
        if 0 < parsed.totalItems then parsed
        else generateFallbackContent rs text

end AIAdapter

/-! ### Concrete generator inputs used by counterexamples and witnesses -/

/-- A 38-character text (below the 50-character threshold) with one
extractable sentence carrying important words. -/
def mitochondriaShort : String := "The mitochondria produce energy daily."

/-- A 52-character text (above the 50-character threshold). -/
def mitochondriaLong : String :=
  "The mitochondria produce energy daily for the cell."

/-- A 34-character sentence whose words are all stop words or at most three
characters long: it survives the sentence filter but yields no important
words. -/
def stopOnlySentence : String := "it is what it is and that is that."

namespace Re

/-! ## A small backtracking regex engine

`aiProcessor.ts` matches a handful of fixed regular expressions
(`extractKeyTerms`, the numeric-fact pattern, the guaranteed-fallback
pattern).  This engine realizes exactly the constructs those patterns use —
greedy character-class repetition, case-insensitive literals, ordered
alternation, capture groups, `^` and `$` — with JavaScript semantics:
leftmost match, greedy with backtracking, alternatives tried in order. -/

/-- Pattern abstract syntax.  `cls p lo hi` is a greedy repetition
`X{lo,hi}` of a character class (`hi = none` for unbounded); `lit` is a
case-insensitive literal; `alt` tries alternatives in order; `grp` records
a capture group. -/
inductive Pat where
  | cls (p : Char → Bool) (lo : Nat) (hi : Option Nat)
  | lit (s : List Char)
  | alt (ps : List Pat)
  | seq (ps : List Pat)
  | grp (n : Nat) (p : Pat)
  | bol
  | eos

/-- Captured groups: number and captured characters. -/
abbrev Groups := List (Nat × List Char)

mutual

/-- All ways a pattern can match a prefix of `input` at absolute position
`pos`, in backtracking priority order: `(rest, new position, groups)`. -/
def mrun : Pat → Nat → List Char → List (List Char × Nat × Groups)
  | .cls p lo hi, pos, input =>
    let maxRun := (input.takeWhile p).length
    let top := match hi with | some h => min h maxRun | none => maxRun
    if top < lo then []
    else ((List.range' lo (top + 1 - lo)).reverse).map
      (fun n => (input.drop n, pos + n, []))
  | .lit s, pos, input =>
    if startsWithCharsCI s input then
      [(input.drop s.length, pos + s.length, [])]
    else []
  | .alt ps, pos, input => mrunAlt ps pos input
  | .seq ps, pos, input => mrunSeq ps pos input
  | .grp n p, pos, input =>
    (mrun p pos input).map
      (fun r => (r.1, r.2.1, (n, input.take (r.2.1 - pos)) :: r.2.2))
  | .bol, pos, input => if pos = 0 then [(input, pos, [])] else []
  | .eos, pos, input => if input.isEmpty then [(input, pos, [])] else []

/-- Alternatives, in order. -/
def mrunAlt : List Pat → Nat → List Char → List (List Char × Nat × Groups)
  | [], _, _ => []
  | p :: ps, pos, input => mrun p pos input ++ mrunAlt ps pos input

/-- Sequencing with full backtracking. -/
def mrunSeq : List Pat → Nat → List Char → List (List Char × Nat × Groups)
  | [], pos, input => [(input, pos, [])]
  | p :: ps, pos, input =>
    (mrun p pos input).flatMap
      (fun r => (mrunSeq ps r.2.1 r.1).map
        (fun r2 => (r2.1, r2.2.1, r.2.2 ++ r2.2.2)))

end

/-- The first match at or after the current position:
`(matched characters, groups, rest of input, position after the match)`. -/
def scanMatch (pat : Pat) : Nat → List Char →
    Option (List Char × Groups × List Char × Nat)
  | pos, input =>
    match (mrun pat pos input).head? with
    | some r => some (input.take (r.2.1 - pos), r.2.2, r.1, r.2.1)
    | none =>
      match input with
      | [] => none
      | _ :: rest => scanMatch pat (pos + 1) rest

/-- `str.match(re)` with the global flag: all non-overlapping matches,
scanning left to right (fuel-bounded; `length + 1` always suffices since
every continuation consumes at least one character). -/
def globalMatches (pat : Pat) : Nat → Nat → List Char → List (List Char)
  | 0, _, _ => []
  | fuel + 1, pos, input =>
    match scanMatch pat pos input with
    | none => []
    | some (m, _, rest, newPos) =>
      if m.isEmpty then
        match rest with
        | [] => [m]
        | _ :: r2 => m :: globalMatches pat fuel (newPos + 1) r2
      else m :: globalMatches pat fuel newPos rest

/-- `str.match(/re/g)` as a list of full-match strings (`[]` for `null`). -/
def jsMatchAll (pat : Pat) (s : String) : List String :=
  (globalMatches pat (s.length + 1) 0 s.data).map List.asString

/-- `str.match(/re/)` (non-global): the first match and its groups. -/
def jsMatchFirst (pat : Pat) (s : String) :
    Option (List Char × Groups × List Char × Nat) :=
  scanMatch pat 0 s.data

/-- Read a capture group (`none` models an unset group / `undefined`). -/
def groupStr (g : Groups) (n : Nat) : Option String :=
  (g.find? (fun p => p.1 = n)).map (fun p => p.2.asString)

end Re

namespace AIProcessor

/-! ## The Gemini processor (`src/utils/aiProcessor.ts`)

The parallel processor wired into `FileUpload`: Gemini-only generation
with a 100-character short-text threshold and a richer local generator
(key-term patterns, numeric facts).  JavaScript floating point in the
numeric-MCQ synthesis is modelled by exact rationals. -/

/-- `extractSentences` (identical cleaning to the adapter's, with the
explicit empty-check structure of this file). -/
def extractSentences (text : String) : List String :=
  let cleaned :=
    trimChars
      (replaceRuns (wsChar ·) [' ']
        ((replaceLongRuns (· = '\n') 2 ['.', ' ']
            (replaceCRLF text.data)).map
          (fun c => if c = '\n' then ' ' else c)))
  let sentences :=
    ((splitAfterPunctGo cleaned (some [])).map
        (fun p => jsTrim p.asString)).filter
      (fun s => 15 < s.length && s.length < 600)
  if sentences.length = 0 then
    ((splitRuns (fun c => c = '.' || c = '\n') cleaned).map
        (fun p => jsTrim p.asString)).filter
      (fun s => 10 < s.length)
  else sentences

/-- The stop-word set (same list as the adapter's). -/
def stopWords : List String := AIAdapter.stopWords

/-- `extractImportantWords`: the shared base filter, then keep capitalized
words or words longer than 4 characters. -/
def extractImportantWords (sentence : String) : List String :=
  let replaced :=
    sentence.data.map (fun c => if alnumChar c || wsChar c then c else ' ')
  let words :=
    ((splitRuns (wsChar ·) replaced).map List.asString).filter
      (fun w => 3 < w.length && !(stopWords.contains (jsToLower w)))
  words.filter (fun w =>
    (match w.data.head? with
     | some c => 'A' ≤ c && c ≤ 'Z'
     | none => false) || 4 < w.length)

/-- `\s+`. -/
def wsPlus : Re.Pat := .cls (wsChar ·) 1 none

/-- `[^.!?]{lo,hi}`. -/
def notSentEnd (lo hi : Nat) : Re.Pat :=
  .cls (fun c => c ≠ '.' && c ≠ '!' && c ≠ '?') lo (some hi)

/-- `[A-Za-z][a-zA-Z\s]{1,n}` (optionally wrapped as group `g`). -/
def namePart (n : Nat) : Re.Pat :=
  .seq [.cls (asciiLetter ·) 1 (some 1),
    .cls (fun c => asciiLetter c || wsChar c) 1 (some n)]

/-- JavaScript `.` (anything but a line terminator), `{lo,}` or `{lo,hi}`. -/
def dotCls (lo : Nat) (hi : Option Nat) : Re.Pat :=
  .cls (fun c => c ≠ '\n' && c ≠ '\r') lo hi

/-- `(is|are|was|were)`. -/
def isAlt : Re.Pat :=
  .alt [.lit "is".data, .lit "are".data, .lit "was".data, .lit "were".data]

/-- `(refers?\s+to|means|denotes|represents)`. -/
def refersAlt : Re.Pat :=
  .alt [.seq [.lit "refer".data, .cls (fun c => c.toLower = 's') 0 (some 1),
      wsPlus, .lit "to".data],
    .lit "means".data, .lit "denotes".data, .lit "represents".data]

/-- Outer `/([A-Za-z][a-zA-Z\s]{1,40})\s+(is|are|was|were)\s+([^.!?]{5,200})/gi`
(groups are irrelevant to a global match). -/
def isOuterPat : Re.Pat :=
  .seq [namePart 40, wsPlus, isAlt, wsPlus, notSentEnd 5 200]

/-- Inner `/([A-Za-z][a-zA-Z\s]{1,40})\s+(is|are|was|were)\s+(.+)/i`. -/
def isInnerPat : Re.Pat :=
  .seq [.grp 1 (namePart 40), wsPlus, .grp 2 isAlt, wsPlus,
    .grp 3 (dotCls 1 none)]

/-- Outer `.../(refers?\s+to|means|denotes|represents)/...` pattern. -/
def refersOuterPat : Re.Pat :=
  .seq [namePart 40, wsPlus, refersAlt, wsPlus, notSentEnd 5 200]

/-- Inner `/(...)\s+(?:refers?\s+to|...)\s+(.+)/i` (the middle group is
non-capturing). -/
def refersInnerPat : Re.Pat :=
  .seq [.grp 1 (namePart 40), wsPlus, refersAlt, wsPlus,
    .grp 2 (dotCls 1 none)]

/-- Outer `/(?:^|[.!?]\s+)The\s+([A-Za-z][a-zA-Z\s]{1,30})\s+([^.!?]{10,200})/gi`. -/
def theOuterPat : Re.Pat :=
  .seq [.alt [.bol,
      .seq [.cls (fun c => c = '.' || c = '!' || c = '?') 1 (some 1), wsPlus]],
    .lit "The".data, wsPlus, namePart 30, wsPlus, notSentEnd 10 200]

/-- Inner `/The\s+([A-Za-z][a-zA-Z\s]{1,30})\s+(.+)/i`. -/
def theInnerPat : Re.Pat :=
  .seq [.lit "The".data, wsPlus, .grp 1 (namePart 30), wsPlus,
    .grp 2 (dotCls 1 none)]

/-- Re-parse one outer match with an inner pattern and extract two trimmed
groups (`if (parts) results.push(...)`). -/
def innerParts (inner : Re.Pat) (g1 g2 : Nat) (m : String) :
    Option (String × String) :=
  match Re.jsMatchFirst inner m with
  | some (_, groups, _, _) =>
    match Re.groupStr groups g1, Re.groupStr groups g2 with
    | some t, some c => some (jsTrim t, jsTrim c)
    | _, _ => none
  | none => none

/-- `extractKeyTerms`: the three pattern families, in source order. -/
def extractKeyTerms (text : String) : List (String × String) :=
  let r1 := (Re.jsMatchAll isOuterPat text).filterMap
    (innerParts isInnerPat 1 3)
  let r2 := (Re.jsMatchAll refersOuterPat text).filterMap
    (innerParts refersInnerPat 1 2)
  let r3 := (Re.jsMatchAll theOuterPat text).filterMap
    (innerParts theInnerPat 1 2)
  r1 ++ r2 ++ r3

/-- `[...new Set(xs)]`: deduplicate keeping first occurrences. -/
def dedupFirstGo : List String → List String → List String
  | [], _ => []
  | x :: xs, seen =>
    if seen.contains x then dedupFirstGo xs seen
    else x :: dedupFirstGo xs (x :: seen)

/-- First-occurrence deduplication. -/
def dedupFirst (l : List String) : List String := dedupFirstGo l []

/-- `extractFacts`: sentences matching any of the fact heuristics
(digits, percentages, discovery verbs, composition, importance,
causation, superlatives), deduplicated, first 50.  The `X?` regexes are
expanded into their literal alternatives. -/
def extractFacts (text : String) : List String :=
  let sentences := extractSentences text
  let facts := sentences.filter (fun s =>
    s.data.any (asciiDigit ·) ||
    icontainsAny s ["percent", "%"] ||
    icontainsAny s
      ["discovered", "invented", "founded", "created", "developed"] ||
    icontainsAny s
      ["consist of", "consists of", "compose of", "composed of"] ||
    icontainsAny s ["important", "significant", "crucial", "essential"] ||
    icontainsAny s ["cause", "results in", "result in", "leads to", "lead to"] ||
    icontainsAny s ["first", "largest", "smallest", "most", "least"])
  (dedupFirst facts).take 50

/-- The key-term flashcard loop (cap 30). -/
def flashKeyLoop : List (String × String) → List Flashcard0 → List Flashcard0
  | [], acc => acc
  | (term, context) :: rest, acc =>
    if acc.length < 30 then
      flashKeyLoop rest
        (acc ++ [⟨.str ("What is " ++ term ++ "?"),
          .str (term ++ " " ++ context)⟩])
    else acc

/-- The fact flashcard loop (cap 50). -/
def flashFactLoop : List String → List Flashcard0 → List Flashcard0
  | [], acc => acc
  | fact :: rest, acc =>
    if acc.length < 50 then
      let importantWords := extractImportantWords fact
      if 0 < importantWords.length then
        flashFactLoop rest
          (acc ++ [⟨.str ("What do you know about " ++
              importantWords.getD 0 "" ++ "?"), .str fact⟩])
      else flashFactLoop rest acc
    else acc

/-- The lenient general-sentence flashcard loop (cap 60). -/
def flashSentenceLoop : List String → List Flashcard0 → List Flashcard0
  | [], acc => acc
  | sentence :: rest, acc =>
    if acc.length < 60 then
      if 20 < sentence.length then
        let words := extractImportantWords sentence
        if 1 ≤ words.length then
          flashSentenceLoop rest
            (acc ++ [⟨.str ("Explain: " ++
                String.intercalate ", " (words.take 3)), .str sentence⟩])
        else
          flashSentenceLoop rest
            (acc ++ [⟨.str ("Complete this: " ++
                String.intercalate " "
                  (((jsSplit (wsChar ·) sentence).take 4)) ++ "..."),
              .str sentence⟩])
      else flashSentenceLoop rest acc
    else acc

/-- The guaranteed-fallback pattern `/.{50,200}[.!?\s]|.{50,200}$/g`. -/
def guaranteedPat : Re.Pat :=
  .alt [.seq [dotCls 50 (some 200),
      .cls (fun c => c = '.' || c = '!' || c = '?' || wsChar c) 1 (some 1)],
    .seq [dotCls 50 (some 200), .eos]]

/-- The guaranteed-fallback loop over up to 10 raw-text chunks. -/
def flashGuaranteedLoop (chunks : List (Nat × String)) : List Flashcard0 :=
  chunks.filterMap (fun p =>
    let chunk := jsTrim p.2
    if 20 < chunk.length then
      some ⟨.str ("Review this content (#" ++ toString (p.1 + 1) ++ ")"),
        .str chunk⟩
    else none)

/-- `generateLocalFlashcards`: key terms, then facts, then general
sentences, then the guaranteed raw-text fallback. -/
def generateLocalFlashcards (text : String) : List Flashcard0 :=
  let keyTerms := extractKeyTerms text
  let sentences := extractSentences text
  let cards1 := flashKeyLoop keyTerms []
  let facts := extractFacts text
  let cards2 := flashFactLoop facts cards1
  let cards3 := flashSentenceLoop sentences cards2
  if cards3.length = 0 && 50 < text.length then
    let ms := Re.jsMatchAll guaranteedPat text
    let chunks := if ms.isEmpty then [substringTo text 200] else ms
    flashGuaranteedLoop ((chunks.take 10).enum.map (fun p => p))
  else cards3

/-- `parseFloat` on a `\d+(\.\d+)?` numeral, as an exact rational. -/
def parseFloatQ (s : String) : ℚ :=
  let intPart := s.data.takeWhile (· ≠ '.')
  let frac := (s.data.dropWhile (· ≠ '.')).drop 1
  let digitsVal := fun (cs : List Char) =>
    cs.foldl (fun n c => n * 10 + (c.toNat - '0'.toNat)) 0
  (digitsVal intPart : ℚ) +
    (digitsVal frac : ℚ) / ((10 : ℚ) ^ frac.length)

/-- `String(q)` for the rationals `parseFloat` produces (denominator a
divisor of a power of ten); JavaScript shortest-round-trip float printing
is modelled by the exact decimal expansion. -/
def qToString (q : ℚ) : String :=
  if q.den = 1 then
    (if q.num < 0 then "-" else "") ++ toString q.num.natAbs
  else
    match (List.range 31).find? (fun k => (10 ^ k) % q.den = 0) with
    | some k =>
      let scaled := q.num.natAbs * ((10 ^ k) / q.den)
      let fracDigits := toString (scaled % 10 ^ k)
      (if q.num < 0 then "-" else "") ++ toString (scaled / 10 ^ k) ++
        "." ++
        (List.replicate (k - fracDigits.length) '0').asString ++ fracDigits
    | none => ""

/-- The numeric-fact pattern `/(\d+(?:\.\d+)?)\s*(%|percent|years?|days?)?/i`. -/
def numPat : Re.Pat :=
  .seq [.grp 1 (.seq [.cls (asciiDigit ·) 1 none,
      .alt [.seq [.lit ".".data, .cls (asciiDigit ·) 1 none], .seq []]]),
    .cls (wsChar ·) 0 none,
    .alt [.grp 2 (.alt [.lit "%".data, .lit "percent".data,
        .seq [.lit "year".data, .cls (fun c => c.toLower = 's') 0 (some 1)],
        .seq [.lit "day".data, .cls (fun c => c.toLower = 's') 0 (some 1)]]),
      .seq []]]

/-- The key-term MCQ loop: indices `0 .. keyTerms.length - 4`, cap 20;
three distractors from the other key terms, options shuffled. -/
def mcqKeyLoop (rs : Nat → ℚ) (keyTerms : List (String × String)) :
    List Nat → Nat → List MCQ0 → List MCQ0 × Nat
  | [], k, acc => (acc, k)
  | i :: is, k, acc =>
    if acc.length < 20 then
      let correct := keyTerms.getD i ("", "")
      let distractors :=
        (((keyTerms.enum.filter (fun p => p.1 ≠ i)).take 3).map
          (fun p => substringTo p.2.2 100))
      if 3 ≤ distractors.length then
        let correctOption := substringTo correct.2 100
        let res := shuffle rs k (correctOption :: distractors)
        mcqKeyLoop rs keyTerms is res.2
          (acc ++ [⟨.str ("What is " ++ correct.1 ++ "?"),
            res.1.map .str,
            .num (((jsIndexOf res.1 correctOption : Int) : ℚ)),
            .str (correct.1 ++ " is " ++ correct.2)⟩])
      else mcqKeyLoop rs keyTerms is k acc
    else (acc, k)

/-- The numeric-fact MCQ loop: cap 30; wrong options are the rounded
half, one-and-a-half and double of the matched number. -/
def mcqFactLoop (rs : Nat → ℚ) : List String → Nat → List MCQ0 →
    List MCQ0 × Nat
  | [], k, acc => (acc, k)
  | fact :: facts, k, acc =>
    if 30 ≤ acc.length then (acc, k)
    else
      match Re.jsMatchFirst numPat fact with
      | none => mcqFactLoop rs facts k acc
      | some (matched, groups, _, _) =>
        let correctNum := parseFloatQ ((Re.groupStr groups 1).getD "")
        let unit := (Re.groupStr groups 2).getD ""
        let wrongNums :=
          ([round (correctNum * (1 / 2 : ℚ)),
            round (correctNum * (3 / 2 : ℚ)),
            round (correctNum * 2)]).filter
            (fun n => ((n : ℚ) ≠ correctNum) && 0 < n)
        if 3 ≤ wrongNums.length then
          let withUnit := fun (s : String) =>
            s ++ (if unit ≠ "" then " " ++ unit else "")
          let correctOption := withUnit (qToString correctNum)
          let options := [correctOption,
            withUnit (toString (wrongNums.getD 0 0)),
            withUnit (toString (wrongNums.getD 1 0)),
            withUnit (toString (wrongNums.getD 2 0))]
          let res := shuffle rs k options
          let question := jsReplaceFirst fact matched.asString "_____"
          mcqFactLoop rs facts res.2
            (acc ++ [⟨.str ("Fill in the blank: " ++ question),
              res.1.map .str,
              .num (((jsIndexOf res.1 correctOption : Int) : ℚ)),
              .str fact⟩])
        else mcqFactLoop rs facts k acc

/-- `generateLocalMCQs`: key-term questions, then numeric-fact questions. -/
def generateLocalMCQs (rs : Nat → ℚ) (k0 : Nat) (text : String) :
    List MCQ0 × Nat :=
  let facts := extractFacts text
  let keyTerms := extractKeyTerms text
  let res1 := mcqKeyLoop rs keyTerms (List.range (keyTerms.length - 3)) k0 []
  mcqFactLoop rs facts res1.2 res1.1

/-- The sentence fill-in-the-blank loop (cap 30), one random draw per
sentence with important words. -/
def fillLoop (rs : Nat → ℚ) : List String → Nat → List FillBlank0 →
    List FillBlank0 × Nat
  | [], k, acc => (acc, k)
  | sentence :: rest, k, acc =>
    if 30 ≤ acc.length then (acc, k)
    else
      let importantWords := extractImportantWords sentence
      if 0 < importantWords.length then
        let wordToRemove :=
          importantWords.getD (randFloor rs k (min 3 importantWords.length)) ""
        let blankedSentence := replaceWordCI sentence wordToRemove "_____"
        if blankedSentence ≠ sentence then
          fillLoop rs rest (k + 1)
            (acc ++ [⟨.str blankedSentence, .str wordToRemove, none⟩])
        else fillLoop rs rest (k + 1) acc
      else fillLoop rs rest k acc

/-- The fill-in-the-blank fallback: first 15 sentences, blank the first
word longer than 5 characters (plain first-occurrence replacement). -/
def fillFallbackLoop : List String → List FillBlank0
  | [] => []
  | sentence :: rest =>
    let words := (jsSplit (wsChar ·) sentence).filter (fun w => 5 < w.length)
    if 0 < words.length then
      let wordToRemove := words.getD 0 ""
      let blanked := jsReplaceFirst sentence wordToRemove "_____"
      if blanked ≠ sentence then
        ⟨.str blanked, .str wordToRemove, none⟩ :: fillFallbackLoop rest
      else fillFallbackLoop rest
    else fillFallbackLoop rest

/-- `generateLocalFillBlanks`. -/
def generateLocalFillBlanks (rs : Nat → ℚ) (k0 : Nat) (text : String) :
    List FillBlank0 × Nat :=
  let sentences := extractSentences text
  let res := fillLoop rs sentences k0 []
  if res.1.length = 0 then (fillFallbackLoop (sentences.take 15), res.2)
  else res

/-- The key-term short-answer loop (cap 10). -/
def shortKeyLoop : List (String × String) → List ShortAnswer0 →
    List ShortAnswer0
  | [], acc => acc
  | (term, context) :: rest, acc =>
    if 10 ≤ acc.length then acc
    else shortKeyLoop rest
      (acc ++ [⟨.str ("Explain what " ++ term ++
          " is and why it is important."),
        .str (term ++ " " ++ context)⟩])

/-- The causal-fact short-answer loop (cap 15). -/
def shortFactLoop : List String → List ShortAnswer0 → List ShortAnswer0
  | [], acc => acc
  | fact :: rest, acc =>
    if 15 ≤ acc.length then acc
    else if icontainsAny fact
        ["cause", "results in", "result in", "leads to", "lead to",
         "because"] then
      shortFactLoop rest
        (acc ++ [⟨.str ("Explain the cause and effect relationship: " ++
            substringTo fact 100), .str fact⟩])
    else shortFactLoop rest acc

/-- The discussion loop over the first five facts (cap 20). -/
def shortDiscussLoop : List String → List ShortAnswer0 → List ShortAnswer0
  | [], acc => acc
  | sentence :: rest, acc =>
    if 20 ≤ acc.length then acc
    else shortDiscussLoop rest
      (acc ++ [⟨.str ("Discuss: " ++ substringTo sentence 150),
        .str sentence⟩])

/-- `generateLocalShortAnswers`. -/
def generateLocalShortAnswers (text : String) : List ShortAnswer0 :=
  let keyTerms := extractKeyTerms text
  let facts := extractFacts text
  let sentences := extractSentences text
  let q1 := shortKeyLoop keyTerms []
  let q2 := shortFactLoop facts q1
  let q3 := shortDiscussLoop (facts.take 5) q2
  if q3.length = 0 then
    (sentences.take 10).map (fun sentence =>
      ⟨.str ("Summarize and explain: " ++ substringTo sentence 80 ++ "..."),
        .str sentence⟩)
  else q3

/-- `generateLocalContent`: the four generators in source order; the
random-draw counter threads from the MCQ generator into the
fill-in-the-blank generator. -/
def generateLocalContent (rs : Nat → ℚ) (text : String) : GeneratedContent :=
  let flashcards := generateLocalFlashcards text
  let mcqRes := generateLocalMCQs rs 0 text
  let fillRes := generateLocalFillBlanks rs mcqRes.2 text
  let shortAnswers := generateLocalShortAnswers text
  ⟨flashcards, mcqRes.1, fillRes.1, shortAnswers⟩

/-- `parseGeminiResponse` flashcards: map with `|| ''` defaults, then
filter on truthiness; a `null` element throws inside the map. -/
def pFlashList : List Json → Except Unit (List Flashcard0)
  | [] => .ok []
  | f :: fs =>
    if f = Json.null then .error ()
    else
      let q := jOr (jGet f "question") (.str "")
      let a := jOr (jGet f "answer") (.str "")
      match pFlashList fs with
      | .error e => .error e
      | .ok rest =>
        .ok (if truthy (some q) && truthy (some a) then ⟨q, a⟩ :: rest
          else rest)

/-- `parseGeminiResponse` mcqs: `options` defaults to `[]`,
`correctIndex` via `?? 0`, `explanation` via `|| ''`; filtered on a truthy
question and options length ≥ 2.  (A truthy non-array `options` value with
`length ≥ 2` — a string — would be kept by the untyped source; its
elements are modelled as the empty array, a corner no claim touches.) -/
def pMcqList : List Json → Except Unit (List MCQ0)
  | [] => .ok []
  | m :: ms =>
    if m = Json.null then .error ()
    else
      let q := jOr (jGet m "question") (.str "")
      let osJ := jOr (jGet m "options") (.arr [])
      let osLen : Option Nat :=
        match osJ with
        | .arr os => some os.length
        | .str s => some s.length
        | _ => none
      let ci :=
        match jGet m "correctIndex" with
        | some .null => Json.num 0
        | some v => v
        | none => Json.num 0
      let ex := jOr (jGet m "explanation") (.str "")
      match pMcqList ms with
      | .error e => .error e
      | .ok rest =>
        .ok (if truthy (some q) &&
            (match osLen with | some n => decide (2 ≤ n) | none => false) then
          ⟨q, jArrD (some osJ), ci, ex⟩ :: rest
        else rest)

/-- `parseGeminiResponse` fillBlanks: map with defaults, filter on
sentence and answer (no explanation field in this file). -/
def pFillList : List Json → Except Unit (List FillBlank0)
  | [] => .ok []
  | f :: fs =>
    if f = Json.null then .error ()
    else
      let s := jOr (jGet f "sentence") (.str "")
      let a := jOr (jGet f "answer") (.str "")
      match pFillList fs with
      | .error e => .error e
      | .ok rest =>
        .ok (if truthy (some s) && truthy (some a) then ⟨s, a, none⟩ :: rest
          else rest)

/-- `parseGeminiResponse` shortAnswers: map with defaults, filter on the
question. -/
def pShortList : List Json → Except Unit (List ShortAnswer0)
  | [] => .ok []
  | s :: ss =>
    if s = Json.null then .error ()
    else
      let q := jOr (jGet s "question") (.str "")
      let a := jOr (jGet s "suggestedAnswer") (.str "")
      match pShortList ss with
      | .error e => .error e
      | .ok rest =>
        .ok (if truthy (some q) then ⟨q, a⟩ :: rest else rest)

/-- `parseGeminiResponse`: brace-match (no fence stripping in this file),
abstract `JSON.parse`, then the four validations with the same
freeze-on-exception behaviour as the adapter's parser. -/
def parseGeminiResponse (parseFn : String → Option Json)
    (response : String) : GeneratedContent :=
  match AIAdapter.braceMatch response.data with
  | none => emptyGC
  | some m =>
    match parseFn m.asString with
    | none => emptyGC
    | some parsed =>
      let flR :=
        match jGet parsed "flashcards" with
        | some (.arr fs) => pFlashList fs
        | _ => .ok []
      match flR with
      | .error _ => emptyGC
      | .ok flash =>
        let mcR :=
          match jGet parsed "mcqs" with
          | some (.arr ms) => pMcqList ms
          | _ => .ok []
        match mcR with
        | .error _ => ⟨flash, [], [], []⟩
        | .ok mcqs =>
          let fiR :=
            match jGet parsed "fillBlanks" with
            | some (.arr l) => pFillList l
            | _ => .ok []
          match fiR with
          | .error _ => ⟨flash, mcqs, [], []⟩
          | .ok fills =>
            let shR :=
              match jGet parsed "shortAnswers" with
              | some (.arr l) => pShortList l
              | _ => .ok []
            match shR with
            | .error _ => ⟨flash, mcqs, fills, []⟩
            | .ok shorts => ⟨flash, mcqs, fills, shorts⟩

/-- `generateSystemPrompt` with the stored custom instructions. -/
def generateSystemPrompt (userInstructions : String) : String :=
  let basePrompt :=
    "You are an expert educational content creator. Generate " ++
    "comprehensive study materials including flashcards, MCQs, " ++
    "fill-in-blanks, and short answer questions. Extract ALL key " ++
    "concepts and create varied difficulty levels."
  if (jsTrim userInstructions).length ≠ 0 then
    basePrompt ++ " Additional instructions: " ++ userInstructions
  else basePrompt

/-- `processChunk` of `aiProcessor.ts`: below 100 trimmed characters the
Gemini call is skipped and the local generator's (possibly non-empty)
content is returned; otherwise call Gemini, parse, and fall back to the
local generator on an error or an empty parse. -/
def processChunk (userInstructions : String)
    (gemini : String → Except String String)
    (parseFn : String → Option Json) (rs : Nat → ℚ) (text : String)
    (_chunkIndex _totalChunks : Nat) : GeneratedContent :=
  if (jsTrim text).length < 100 then generateLocalContent rs text
  else
    let prompt := generateSystemPrompt userInstructions ++
      "\n\nCONTENT:\n" ++ text ++
      "\n\nReturn JSON:\n\x7b\"flashcards\":[\x7b\"question\":\"\",\"answer\":\"\"\x7d],\"mcqs\":[\x7b\"question\":\"\",\"options\":[\"A\",\"B\",\"C\",\"D\"],\"correctIndex\":0,\"explanation\":\"\"\x7d],\"fillBlanks\":[\x7b\"sentence\":\"_____\",\"answer\":\"\"\x7d],\"shortAnswers\":[\x7b\"question\":\"\",\"suggestedAnswer\":\"\"\x7d]\x7d"
    match gemini prompt with
    | .error _ => generateLocalContent rs text
    | .ok response =>
      let parsed := parseGeminiResponse parseFn response
      if 0 < parsed.totalItems then parsed
      else generateLocalContent rs text

end AIProcessor

/-- A 44-character all-digit text (below the 50-character threshold): its
one sentence is a fact (it contains digits), so the local generator
produces flashcards for it. -/
def digitsShort : String := "12345 67890 12345 67890 12345 67890 1234567."

/-! ## Study banks and the state reducer (`src/context/StudyContext.tsx`)

`generateId()` (timestamp + random suffix, `storage.ts`) is modelled by an
abstract id supply `gid : Nat → String`, numbering the sequential calls
within one reducer action. -/

/-- A flashcard with its id and source-chunk index. -/
structure Flashcard extends Flashcard0 where
  id : String
  chunkIndex : Nat
  deriving DecidableEq

/-- An MCQ with its id and source-chunk index. -/
structure MCQ extends MCQ0 where
  id : String
  chunkIndex : Nat
  deriving DecidableEq

/-- A fill-in-the-blank item with its id and source-chunk index. -/
structure FillInBlank extends FillBlank0 where
  id : String
  chunkIndex : Nat
  deriving DecidableEq

/-- A short-answer item with its id and source-chunk index. -/
structure ShortAnswer extends ShortAnswer0 where
  id : String
  chunkIndex : Nat
  deriving DecidableEq

/-- The per-document aggregate root.  (`src/types.ts` is not among the
sources; the fields follow the specification's data model and every use in
`StudyContext.tsx` / `storage.ts`, including the optional `rawText` that
the storage layer drops under quota pressure.) -/
structure StudyBank where
  id : String
  fileName : String
  createdAt : String
  totalChunks : Nat
  processedChunks : Nat
  flashcards : List Flashcard
  mcqs : List MCQ
  fillBlanks : List FillInBlank
  shortAnswers : List ShortAnswer
  isProcessing : Bool
  rawText : Option String := none
  deriving DecidableEq

/-- The ephemeral global processing status. -/
structure ProcessingStatus where
  isProcessing : Bool
  currentChunk : Nat
  totalChunks : Nat
  message : String
  deriving DecidableEq

/-- The idle processing status
`{isProcessing: false, currentChunk: 0, totalChunks: 0, message: ''}`. -/
def idleStatus : ProcessingStatus := ⟨false, 0, 0, ""⟩

/-- `ChunkResult` (the spec's name for the generation contract) is the
same shape as `GeneratedContent`. -/
abbrev ChunkResult := GeneratedContent

/-- The reducer state. -/
structure StudyState where
  studyBanks : List StudyBank
  activeBank : Option StudyBank
  processingStatus : ProcessingStatus
  isHydrated : Bool
  deriving DecidableEq

/-- The `StudyAction` union. -/
inductive StudyAction where
  | loadBanks (payload : List StudyBank)
  | addBank (payload : StudyBank)
  | updateBank (payload : StudyBank)
  | deleteBank (payload : String)
  | setActiveBank (payload : Option StudyBank)
  | setProcessingStatus (payload : ProcessingStatus)
  | appendChunkResults (bankId : String) (chunkIndex : Nat)
      (results : ChunkResult)
  | finishProcessing (payload : String)
  | setHydrated

/-- `state.activeBank?.id === someId`. -/
def activeIdIs (state : StudyState) (someId : String) : Bool :=
  match state.activeBank with
  | some a => a.id = someId
  | none => false

/-- The `APPEND_CHUNK_RESULTS` update of one bank: each result item gets a
fresh id and the action's chunk index; `processedChunks` is set to
`chunkIndex + 1` (an overwrite, not an increment). -/
def appendToBank (gid : Nat → String) (bank : StudyBank) (chunkIndex : Nat)
    (results : ChunkResult) : StudyBank :=
  let nF := results.flashcards.length
  let nM := results.mcqs.length
  let nB := results.fillBlanks.length
  let newFlashcards : List Flashcard :=
    results.flashcards.enum.map (fun p => ⟨p.2, gid p.1, chunkIndex⟩)
  let newMcqs : List MCQ :=
    results.mcqs.enum.map (fun p => ⟨p.2, gid (nF + p.1), chunkIndex⟩)
  let newFillBlanks : List FillInBlank :=
    results.fillBlanks.enum.map
      (fun p => ⟨p.2, gid (nF + nM + p.1), chunkIndex⟩)
  let newShortAnswers : List ShortAnswer :=
    results.shortAnswers.enum.map
      (fun p => ⟨p.2, gid (nF + nM + nB + p.1), chunkIndex⟩)
  { bank with
    flashcards := bank.flashcards ++ newFlashcards
    mcqs := bank.mcqs ++ newMcqs
    fillBlanks := bank.fillBlanks ++ newFillBlanks
    shortAnswers := bank.shortAnswers ++ newShortAnswers
    processedChunks := chunkIndex + 1 }

/-- `studyReducer(state, action)`, translated case by case. -/
def studyReducer (gid : Nat → String) (state : StudyState)
    (action : StudyAction) : StudyState :=
  match action with
  | .loadBanks payload =>
    { state with
      studyBanks := payload
      isHydrated := true
      activeBank :=
        match state.activeBank with
        | some b => some b
        | none => payload.head? }
  | .setHydrated => { state with isHydrated := true }
  | .addBank payload =>
    { state with
      studyBanks := state.studyBanks ++ [payload]
      activeBank := some payload }
  | .updateBank payload =>
    let updatedBanks := state.studyBanks.map
      (fun bank => if bank.id = payload.id then payload else bank)
    { state with
      studyBanks := updatedBanks
      activeBank :=
        if activeIdIs state payload.id then some payload
        else state.activeBank }
  | .deleteBank payload =>
    let filteredBanks := state.studyBanks.filter (fun bank => bank.id ≠ payload)
    { state with
      studyBanks := filteredBanks
      activeBank :=
        if activeIdIs state payload then none else state.activeBank }
  | .setActiveBank payload => { state with activeBank := payload }
  | .setProcessingStatus payload => { state with processingStatus := payload }
  | .appendChunkResults bankId chunkIndex results =>
    match state.studyBanks.findIdx? (fun b => b.id = bankId) with
    | none => state
    | some bankIndex =>
      match state.studyBanks.get? bankIndex with
      | none => state
      | some bank =>
        let updatedBank := appendToBank gid bank chunkIndex results
        { state with
          studyBanks := state.studyBanks.set bankIndex updatedBank
          activeBank :=
            if activeIdIs state bankId then some updatedBank
            else state.activeBank }
  | .finishProcessing bankId =>
    match state.studyBanks.findIdx? (fun b => b.id = bankId) with
    | none => { state with processingStatus := idleStatus }
    | some bankIndex =>
      match state.studyBanks.get? bankIndex with
      | none => { state with processingStatus := idleStatus }
      | some bank =>
        let updatedBank := { bank with isProcessing := false }
        { state with
          studyBanks := state.studyBanks.set bankIndex updatedBank
          activeBank :=
            if activeIdIs state bankId then some updatedBank
            else state.activeBank
          processingStatus := idleStatus }

/-- The bank record `createStudyBank` builds (id and timestamp come from
the environment). -/
def createStudyBankRecord (id fileName createdAt : String)
    (totalChunks : Nat) : StudyBank :=
  ⟨id, fileName, createdAt, totalChunks, 0, [], [], [], [], true, none⟩

/-- `{...bank, isProcessing: false}` — the stale-lock reset applied to
every persisted bank on load. -/
def clearProcessing (b : StudyBank) : StudyBank :=
  { b with isProcessing := false }

/-- `loadInitialState()`: the synchronous fast-path load, given the banks
`loadStudyBanksSync()` returned. -/
def loadInitialState (persisted : List StudyBank) : StudyState :=
  let cleanedBanks := persisted.map clearProcessing
  { studyBanks := cleanedBanks
    activeBank := cleanedBanks.head?
    processingStatus := ⟨false, 0, 0, ""⟩
    isHydrated := 0 < persisted.length }

/-- The asynchronous `loadAsync` effect, given the banks `loadStudyBanks()`
resolved with: clear the processing flags, then dispatch `LOAD_BANKS` only
when the durable store returned more banks than the fast path, else just
`SET_HYDRATED`. -/
def loadAsyncStep (gid : Nat → String) (state : StudyState)
    (banks : List StudyBank) : StudyState :=
  let cleanedBanks := banks.map clearProcessing
  if state.studyBanks.length < banks.length then
    studyReducer gid state (.loadBanks cleanedBanks)
  else
    studyReducer gid state .setHydrated

/-- `N` sequential `appendChunkResults` dispatches for chunk indices
`0 .. N-1`, in order; `gid k` supplies the fresh ids of the `k`-th call. -/
def appendRun (gid : Nat → Nat → String) (bankId : String)
    (resultsFor : Nat → ChunkResult) (state : StudyState) :
    Nat → StudyState
  | 0 => state
  | k + 1 =>
    studyReducer (gid k) (appendRun gid bankId resultsFor state k)
      (.appendChunkResults bankId k (resultsFor k))

/-- The bank a sequence of appends builds, in isolation. -/
def iterBank (gid : Nat → Nat → String) (resultsFor : Nat → ChunkResult)
    (bank : StudyBank) : Nat → StudyBank
  | 0 => bank
  | k + 1 =>
    appendToBank (gid k) (iterBank gid resultsFor bank k) k (resultsFor k)

namespace Storage

/-! ## Dual-backend persistence (`src/utils/storage.ts`)

The success path of the storage layer.  The IndexedDB object store is
modelled as a list of banks keyed by `id` (`put` upserts); iteration order
is modelled as insertion order, so the round-trip statement below is
phrased order-insensitively (as a permutation).  LocalStorage holds the
serialized full collection; `JSON.stringify`/`JSON.parse` round-tripping is
modelled as the identity on the typed value. -/

/-- The two backends: the IndexedDB object store and the localStorage
mirror (`none` when the key is absent). -/
structure StorageSt where
  idb : List StudyBank
  ls : Option (List StudyBank)
  deriving DecidableEq

/-- `store.put(bank)`: upsert keyed by `id`. -/
def idbPut (store : List StudyBank) (bank : StudyBank) : List StudyBank :=
  if store.any (fun b => b.id = bank.id) then
    store.map (fun b => if b.id = bank.id then bank else b)
  else store ++ [bank]

/-- `saveToIndexedDB`: clear the store, then put every bank. -/
def saveToIndexedDB (banks : List StudyBank) (st : StorageSt) : StorageSt :=
  { st with idb := banks.foldl idbPut [] }

/-- `saveToLocalStorage` (success path: the quota-pressure retry that drops
`rawText` is not exercised). -/
def saveToLocalStorage (banks : List StudyBank) (st : StorageSt) :
    StorageSt :=
  { st with ls := some banks }

/-- `loadFromIndexedDB` (success path): `getAll`. -/
def loadFromIndexedDB (st : StorageSt) : List StudyBank := st.idb

/-- `loadFromLocalStorage`: parse the stored collection, `[]` when the key
is absent. -/
def loadFromLocalStorage (st : StorageSt) : List StudyBank := st.ls.getD []

/-- `saveStudyBanks(banks)`: write both backends. -/
def saveStudyBanks (banks : List StudyBank) (st : StorageSt) : StorageSt :=
  saveToLocalStorage banks (saveToIndexedDB banks st)

/-- `loadStudyBanks()`: prefer IndexedDB; when it is empty, read the
mirror and (when nonempty) migrate it into IndexedDB.  Returns the loaded
banks and the possibly-updated storage. -/
def loadStudyBanks (st : StorageSt) : List StudyBank × StorageSt :=
  let idbBanks := loadFromIndexedDB st
  if 0 < idbBanks.length then (idbBanks, st)
  else
    let localBanks := loadFromLocalStorage st
    if 0 < localBanks.length then (localBanks, saveToIndexedDB localBanks st)
    else (localBanks, st)

/-- `loadStudyBanksSync()`: the fast-path read, localStorage only. -/
def loadStudyBanksSync (st : StorageSt) : List StudyBank :=
  loadFromLocalStorage st

/-- `saveStudyBankIncremental(bank)`: upsert into IndexedDB and rewrite the
mirror with the bank replaced-if-present-else-appended. -/
def saveStudyBankIncremental (bank : StudyBank) (st : StorageSt) :
    StorageSt :=
  let afterIdb := { st with idb := idbPut st.idb bank }
  let banks := loadFromLocalStorage afterIdb
  let banks' :=
    if banks.any (fun b => b.id = bank.id) then
      banks.map (fun b => if b.id = bank.id then bank else b)
    else banks ++ [bank]
  saveToLocalStorage banks' afterIdb

/-- `deleteStudyBank(id)`: remove from both backends. -/
def deleteStudyBank (id : String) (st : StorageSt) : StorageSt :=
  let afterIdb := { st with idb := st.idb.filter (fun b => b.id ≠ id) }
  saveToLocalStorage
    (loadFromLocalStorage afterIdb |>.filter (fun b => b.id ≠ id)) afterIdb

end Storage

/-! ## Chunker lemmas -/

/-- When no word of the text ends in sentence punctuation, the split-point
search always falls through to the ideal end. -/
theorem findBestSplitPoint_no_punct (words : List String) (t r : Nat)
    (h : ∀ w ∈ words, endsSentence w = false) :
    findBestSplitPoint words t r = t := by
  have hall : ∀ i : Nat, endsSentence (words[i]?.getD "") = false := by
    intro i
    rcases Nat.lt_or_ge i words.length with hi | hi
    · rw [List.getElem?_eq_getElem hi]
      exact h _ (List.getElem_mem hi)
    · rw [List.getElem?_eq_none hi]
      rfl
  have h1 : ∀ a b : Nat,
      (List.range' a b).find? (fun i => endsSentence (words[i]?.getD "")) = none :=
    fun a b => List.find?_eq_none.mpr (fun i _ => by simp [hall i])
  have h2 : ∀ a b : Nat,
      ((List.range' a b).reverse).find? (fun i => endsSentence (words[i]?.getD "")) = none :=
    fun a b => List.find?_eq_none.mpr (fun i _ => by simp [hall i])
  simp [findBestSplitPoint, h1, h2]

/-- The split-point search never overshoots the ideal end by more than 51
words: the forward scan may land on the word 50 past the ideal end, and the
split point is one past that word. -/
theorem findBestSplitPoint_le (words : List String) (t : Nat) :
    findBestSplitPoint words t ≤ t + 51 := by
  simp only [findBestSplitPoint]
  split
  · next i hi =>
    have hmem := List.mem_of_find?_eq_some hi
    have := List.mem_range'_1.mp hmem
    omega
  · split
    · next i hi =>
      have hmem := List.mem_of_find?_eq_some hi
      rw [List.mem_reverse] at hmem
      have := List.mem_range'_1.mp hmem
      omega
    · omega

/-- In the punctuation-free regime with `overlapSize < chunkSize`, the
number of chunks `chunkLoop` emits from `start` is the ceiling of
`(length - start - overlapSize) / (chunkSize - overlapSize)`, stated as the
two-sided bracket that pins that ceiling down. -/
theorem chunkLoop_length_bracket (words : List String) (cs os : Nat)
    (hpunct : ∀ w ∈ words, endsSentence w = false) (hos : os < cs) :
    ∀ fuel start idx, start + os < words.length →
      words.length - start ≤ fuel * (cs - os) →
      (cs - os) * ((chunkLoop words cs os fuel start idx).length - 1)
          < words.length - start - os ∧
        words.length - start - os
          ≤ (cs - os) * (chunkLoop words cs os fuel start idx).length := by
  intro fuel
  induction fuel with
  | zero =>
    intro start idx h1 h2
    simp only [Nat.zero_mul] at h2
    omega
  | succ fuel ih =>
    intro start idx h1 h2
    rw [Nat.succ_mul] at h2
    simp only [chunkLoop]
    rw [if_neg (by omega)]
    by_cases hfin : words.length ≤ start + cs
    · rw [if_pos hfin]
      simp only [List.length_cons, List.length_nil]
      constructor
      · simpa using (by omega : 0 < words.length - start - os)
      · simpa using (by omega : words.length - start - os ≤ (cs - os) * 1)
    · rw [if_neg hfin]
      rw [findBestSplitPoint_no_punct words (start + cs) 50 hpunct]
      rw [if_neg (by omega : ¬(start + cs - os ≤ start))]
      have ih' := ih (start + cs - os) (idx + 1) (by omega) (by omega)
      simp only [List.length_cons]
      obtain ⟨ihl, ihr⟩ := ih'
      generalize hLg :
        (chunkLoop words cs os fuel (start + cs - os) (idx + 1)).length = L
        at ihl ihr ⊢
      have hLpos : 1 ≤ L := by
        by_contra hL0
        have hLz : L = 0 := by omega
        rw [hLz] at ihr
        simp only [Nat.mul_zero] at ihr
        omega
      obtain ⟨L', rfl⟩ : ∃ L', L = L' + 1 := ⟨L - 1, by omega⟩
      have hms : (cs - os) * (L' + 1) = (cs - os) * L' + (cs - os) :=
        Nat.mul_succ _ _
      have hms2 : (cs - os) * (L' + 1 + 1) = (cs - os) * (L' + 1) + (cs - os) :=
        Nat.mul_succ _ _
      simp only [Nat.add_sub_cancel] at ihl ⊢
      omega

/-- The `estimateChunkCount` formula satisfies the same ceiling bracket. -/
theorem estimate_bracket (T os cs : Nat) (hos : os < cs) (hT : cs < T) :
    (cs - os) * ((T - os + (cs - os - 1)) / (cs - os) - 1) < T - os ∧
      T - os ≤ (cs - os) * ((T - os + (cs - os - 1)) / (cs - os)) := by
  have he : 0 < cs - os := by omega
  have hdm := Nat.div_add_mod (T - os + (cs - os - 1)) (cs - os)
  have hmod := Nat.mod_lt (T - os + (cs - os - 1)) he
  generalize hqg : (T - os + (cs - os - 1)) / (cs - os) = q at hdm ⊢
  generalize hrg : (T - os + (cs - os - 1)) % (cs - os) = r at hdm hmod
  have hqpos : 1 ≤ q := by
    by_contra hq0
    have hqz : q = 0 := by omega
    rw [hqz] at hdm
    simp only [Nat.mul_zero, Nat.zero_add] at hdm
    omega
  obtain ⟨q', rfl⟩ : ∃ q', q = q' + 1 := ⟨q - 1, by omega⟩
  have hms : (cs - os) * (q' + 1) = (cs - os) * q' + (cs - os) := Nat.mul_succ _ _
  simp only [Nat.add_sub_cancel]
  omega

/-- Two naturals satisfying the same ceiling bracket for a positive step
are equal. -/
theorem bracket_unique (e D a b : Nat) (he : 0 < e)
    (ha : e * (a - 1) < D ∧ D ≤ e * a) (hb : e * (b - 1) < D ∧ D ≤ e * b) :
    a = b := by
  obtain ⟨ha1, ha2⟩ := ha
  obtain ⟨hb1, hb2⟩ := hb
  have h1 : a - 1 < b := Nat.lt_of_mul_lt_mul_left (Nat.lt_of_lt_of_le ha1 hb2)
  have h2 : b - 1 < a := Nat.lt_of_mul_lt_mul_left (Nat.lt_of_lt_of_le hb1 ha2)
  have hapos : 0 < a := by
    rcases Nat.eq_zero_or_pos a with h | h
    · subst h
      simp only [Nat.mul_zero] at ha2
      omega
    · exact h
  omega

/-- C2 (counterexample): on the empty text, `chunkText` returns no chunks
while `estimateChunkCount` returns 1; and on a 30-word text with one
sentence end at word 20 (`chunkSize = 10`, `overlapSize = 0`), `chunkText`
returns 2 chunks but the estimate is 3 — so the two do not agree for every
input text and options value. -/
theorem c2_chunk_estimate_counterexample :
    (chunkText "" 800 100).length ≠ estimateChunkCount "" 800 100 ∧
      (chunkText punctAt20 10 0).length ≠ estimateChunkCount punctAt20 10 0 := by
  constructor
  · decide
  · decide

/-- C2 (amended): for every text that tokenizes to at least one word none
of which ends in `.`, `!` or `?`, and every options value with
`overlapSize < chunkSize`, the number of chunks returned by `chunkText`
equals `estimateChunkCount` for the same inputs.  (The original claim fails
on the empty text — 0 chunks vs estimate 1 — and near sentence punctuation,
where the split-point search moves chunk boundaries the estimate cannot
see.) -/
theorem c2_chunk_count_eq_estimate (text : String) (cs os : Nat)
    (hw : tokenizeText text ≠ [])
    (hpunct : ∀ w ∈ tokenizeText text, endsSentence w = false)
    (hos : os < cs) :
    (chunkText text cs os).length = estimateChunkCount text cs os := by
  unfold chunkText estimateChunkCount
  have hT : 0 < (tokenizeText text).length :=
    List.length_pos.mpr hw
  by_cases hsmall : (tokenizeText text).length ≤ cs
  · rw [if_neg (by omega), if_pos hsmall, if_pos hsmall]
    rfl
  · rw [if_neg (by omega), if_neg hsmall, if_neg hsmall]
    have hfuel : (tokenizeText text).length - 0 ≤
        ((tokenizeText text).length + 1) * (cs - os) := by
      calc (tokenizeText text).length - 0
          ≤ ((tokenizeText text).length + 1) * 1 := by omega
        _ ≤ ((tokenizeText text).length + 1) * (cs - os) :=
            Nat.mul_le_mul_left _ (by omega)
    have hbr := chunkLoop_length_bracket (tokenizeText text) cs os hpunct hos
      ((tokenizeText text).length + 1) 0 0 (by omega) hfuel
    have hest := estimate_bracket (tokenizeText text).length os cs hos
      (by omega)
    simp only [Nat.sub_zero] at hbr
    exact bracket_unique (cs - os) ((tokenizeText text).length - os) _ _
      (by omega) hbr hest

/-- C2 (witness for the amended claim) at the three-word text `"a b c"`
with `chunkSize = 2`, `overlapSize = 1`. -/
theorem c2_chunk_count_eq_estimate_witness :
    tokenizeText "a b c" ≠ [] ∧
      (∀ w ∈ tokenizeText "a b c", endsSentence w = false) ∧
      1 < 2 ∧
      (chunkText "a b c" 2 1).length = estimateChunkCount "a b c" 2 1 :=
  ⟨by decide, by decide, by decide,
    c2_chunk_count_eq_estimate "a b c" 2 1 (by decide) (by decide)
      (by decide)⟩

/-- Every emitted chunk of the main loop has at most
`chunkSize + 51` words. -/
theorem chunkLoop_wordCount_le (words : List String) (cs os : Nat) :
    ∀ fuel start idx c, c ∈ chunkLoop words cs os fuel start idx →
      c.wordCount ≤ cs + 51 := by
  intro fuel
  induction fuel with
  | zero =>
    intro start idx c hc
    simp [chunkLoop] at hc
  | succ fuel ih =>
    intro start idx c hc
    simp only [chunkLoop] at hc
    by_cases h1 : words.length ≤ start
    · rw [if_pos h1] at hc
      simp at hc
    · rw [if_neg h1] at hc
      by_cases h2 : words.length ≤ start + cs
      · rw [if_pos h2] at hc
        simp only [List.mem_singleton] at hc
        subst hc
        simp only [List.length_drop]
        omega
      · rw [if_neg h2] at hc
        rcases List.mem_cons.mp hc with rfl | hmem
        · simp only [List.length_take, List.length_drop]
          have := findBestSplitPoint_le words (start + cs)
          omega
        · exact ih _ _ _ hmem

/-- C9 (counterexample): with `chunkSize = 4`, `overlapSize = 0` and a
56-word text whose only sentence end sits 50 words past the first ideal
chunk end, `chunkText` produces two chunks and the first has 55 words —
more than `chunkSize + 50 = 54`. -/
theorem c9_chunk_bound_counterexample :
    2 ≤ (chunkText sentenceAt54 4 0).length ∧
      ∃ c ∈ chunkText sentenceAt54 4 0, ¬(c.wordCount ≤ 4 + 50) := by
  decide

/-- C9 (amended): every chunk produced by `chunkText` has
`wordCount ≤ chunkSize + 51` — the forward scan of the split-point search
may accept a sentence end 50 words past the ideal end and cut one word
after it, so the exact slack is 51, not 50; no single-chunk exception is
needed. -/
theorem c9_chunk_wordCount_bound (text : String) (cs os : Nat) :
    ∀ c ∈ chunkText text cs os, c.wordCount ≤ cs + 51 := by
  intro c hc
  unfold chunkText at hc
  by_cases h0 : (tokenizeText text).length = 0
  · rw [if_pos h0] at hc
    simp at hc
  · rw [if_neg h0] at hc
    by_cases hsmall : (tokenizeText text).length ≤ cs
    · rw [if_pos hsmall] at hc
      simp only [List.mem_singleton] at hc
      subst hc
      simpa using by omega
    · rw [if_neg hsmall] at hc
      exact chunkLoop_wordCount_le (tokenizeText text) cs os _ _ _ c hc

/-- C9 (witness for the amended claim): the single chunk of `"a b"` under
default options is within the bound. -/
theorem c9_chunk_wordCount_bound_witness :
    (⟨0, "a b", 2, 0, 1⟩ : TextChunk) ∈ chunkText "a b" 800 100 ∧
      (⟨0, "a b", 2, 0, 1⟩ : TextChunk).wordCount ≤ 800 + 51 :=
  ⟨by decide,
    c9_chunk_wordCount_bound "a b" 800 100 ⟨0, "a b", 2, 0, 1⟩ (by decide)⟩

/-! ## Orchestrator degrade path (C1) -/

/-- C1 (counterexample): for the 38-character chunk `mitochondriaShort`
and a provider that is unavailable and whose `generate` throws,
`processChunk` returns the empty result, not the fallback generator's
output (which contains a flashcard): the short-chunk guard fires before
the failure path, so the equality does not hold for every chunk text. -/
theorem c1_degrade_counterexample :
    AIAdapter.processChunk "" ⟨false, fun _ => Except.error "network error"⟩
        (fun _ => none) (fun _ => 0) mitochondriaShort 0 1 ≠
      AIAdapter.generateFallbackContent (fun _ => 0) mitochondriaShort := by
  decide

/-- C1 (amended): for every chunk text whose trimmed length is at least 50
and every provider behaviour, if the provider is unavailable or its
`generate` call throws, `processChunk` returns exactly the fallback
generator's output on the original chunk text; `processChunk` is a total
function, so it never throws. -/
theorem c1_degrade_to_fallback (userInstructions : String)
    (p : AIAdapter.Provider) (parseFn : String → Option Json)
    (rs : Nat → ℚ) (text : String) (i n : Nat)
    (hlen : 50 ≤ (jsTrim text).length)
    (hfail : p.available = false ∨
      ∃ e, p.generate
          (AIAdapter.getStudyMaterialsPrompt userInstructions text) =
        Except.error e) :
    AIAdapter.processChunk userInstructions p parseFn rs text i n =
      AIAdapter.generateFallbackContent rs text := by
  unfold AIAdapter.processChunk
  rw [if_neg (by omega)]
  rcases hfail with hna | ⟨e, he⟩
  · simp [hna]
  · cases hav : p.available
    · simp [hav]
    · simp only [hav, Bool.not_true, Bool.false_eq_true, if_false]
      rw [he]

/-- C1 (witness for the amended claim) at the 51-character trimmed text
`mitochondriaLong` with an unavailable, throwing provider. -/
theorem c1_degrade_to_fallback_witness :
    50 ≤ (jsTrim mitochondriaLong).length ∧
      AIAdapter.processChunk ""
          ⟨false, fun _ => Except.error "network error"⟩ (fun _ => none)
          (fun _ => 0) mitochondriaLong 0 1 =
        AIAdapter.generateFallbackContent (fun _ => 0) mitochondriaLong :=
  ⟨by decide,
    c1_degrade_to_fallback "" ⟨false, fun _ => Except.error "network error"⟩
      (fun _ => none) (fun _ => 0) mitochondriaLong 0 1 (by decide)
      (Or.inl rfl)⟩

/-! ## Fallback non-emptiness (C3) -/

/-- The flashcard loop returns a nonempty list whenever the accumulator is
already nonempty or some sentence yields an important word. -/
theorem fbFlashcardsGo_ne_nil :
    ∀ (l : List String) (acc : List Flashcard0),
      (acc ≠ [] ∨ ∃ s ∈ l, AIAdapter.extractImportantWords s ≠ []) →
      AIAdapter.fbFlashcardsGo l acc ≠ [] := by
  intro l
  induction l with
  | nil =>
    intro acc h
    rcases h with h | ⟨s, hs, _⟩
    · simpa [AIAdapter.fbFlashcardsGo] using h
    · simp at hs
  | cons s rest ih =>
    intro acc h
    simp only [AIAdapter.fbFlashcardsGo]
    by_cases hlt : acc.length < 25
    · rw [if_pos hlt]
      by_cases hw : 0 < (AIAdapter.extractImportantWords s).length
      · rw [if_pos hw]
        apply ih
        left
        simp
      · rw [if_neg hw]
        apply ih
        rcases h with h | ⟨t, ht, hw2⟩
        · exact Or.inl h
        · rcases List.mem_cons.mp ht with rfl | htr
          · exact absurd (List.length_pos.mpr hw2) hw
          · exact Or.inr ⟨t, htr, hw2⟩
    · rw [if_neg hlt]
      intro hnil
      rw [hnil] at hlt
      simp at hlt

/-- C3 (counterexample): `stopOnlySentence` has an extractable sentence
(it survives the `(15, 600)` filter) but every word is a stop word or at
most three characters, so the fallback generator returns no flashcards —
indeed nothing at all. -/
theorem c3_fallback_counterexample :
    AIAdapter.extractSentences stopOnlySentence ≠ [] ∧
      AIAdapter.generateFallbackContent (fun _ => 0) stopOnlySentence =
        emptyGC := by
  decide

/-- C3 (amended): for every text and randomness stream, if some extracted
sentence yields at least one important word, the fallback generator returns
at least one flashcard (hence non-empty total output). -/
theorem c3_fallback_flashcards (text : String) (rs : Nat → ℚ)
    (h : ∃ s ∈ AIAdapter.extractSentences text,
      AIAdapter.extractImportantWords s ≠ []) :
    (AIAdapter.generateFallbackContent rs text).flashcards ≠ [] := by
  unfold AIAdapter.generateFallbackContent
  exact fbFlashcardsGo_ne_nil _ _ (Or.inr h)

/-- C3 (witness for the amended claim) at `mitochondriaShort`. -/
theorem c3_fallback_flashcards_witness :
    (∃ s ∈ AIAdapter.extractSentences mitochondriaShort,
        AIAdapter.extractImportantWords s ≠ []) ∧
      (AIAdapter.generateFallbackContent (fun _ => 0)
          mitochondriaShort).flashcards ≠ [] :=
  ⟨by decide, c3_fallback_flashcards mitochondriaShort (fun _ => 0)
    (by decide)⟩

/-! ## Response-validation lemmas (C4) -/

/-- On a `null`-free array, the flashcard validator succeeds and returns
exactly the kept-and-mapped entries. -/
theorem vFlashList_ok (fs : List Json) (h : Json.null ∉ fs) :
    ∃ l, AIAdapter.vFlashList fs = .ok l ∧
      ∀ fc : Flashcard0, fc ∈ l ↔
        ∃ f ∈ fs, AIAdapter.flashKeep f = true ∧ fc = AIAdapter.flashOf f := by
  induction fs with
  | nil => exact ⟨[], rfl, by simp⟩
  | cons f fs ih =>
    have hf : f ≠ Json.null := fun hf => h (hf ▸ List.mem_cons_self f fs)
    obtain ⟨l, hok, hiff⟩ := ih (fun hm => h (List.mem_cons_of_mem f hm))
    rw [AIAdapter.vFlashList, if_neg hf]
    by_cases hk : AIAdapter.flashKeep f
    · refine ⟨AIAdapter.flashOf f :: l, by rw [if_pos hk, hok], ?_⟩
      intro fc
      constructor
      · intro hmem
        rcases List.mem_cons.mp hmem with heq | hl
        · exact ⟨f, List.mem_cons_self f fs, hk, heq⟩
        · obtain ⟨g, hg, hkg, hfc⟩ := (hiff fc).mp hl
          exact ⟨g, List.mem_cons_of_mem f hg, hkg, hfc⟩
      · rintro ⟨g, hg, hkg, hfc⟩
        rcases List.mem_cons.mp hg with rfl | hgr
        · exact List.mem_cons.mpr (Or.inl hfc)
        · exact List.mem_cons.mpr
            (Or.inr ((hiff fc).mpr ⟨g, hgr, hkg, hfc⟩))
    · refine ⟨l, by rw [if_neg hk]; exact hok, ?_⟩
      intro fc
      constructor
      · intro hl
        obtain ⟨g, hg, hkg, hfc⟩ := (hiff fc).mp hl
        exact ⟨g, List.mem_cons_of_mem f hg, hkg, hfc⟩
      · rintro ⟨g, hg, hkg, hfc⟩
        rcases List.mem_cons.mp hg with rfl | hgr
        · exact absurd hkg hk
        · exact (hiff fc).mpr ⟨g, hgr, hkg, hfc⟩

/-- On a `null`-free array, the MCQ validator succeeds and keeps every
entry satisfying the filter. -/
theorem vMcqList_ok (ms : List Json) (h : Json.null ∉ ms) :
    ∃ l, AIAdapter.vMcqList ms = .ok l ∧
      ∀ m ∈ ms, AIAdapter.mcqKeep m = true → AIAdapter.mcqOf m ∈ l := by
  induction ms with
  | nil => exact ⟨[], rfl, by simp⟩
  | cons m ms ih =>
    have hm : m ≠ Json.null := fun hm => h (hm ▸ List.mem_cons_self m ms)
    obtain ⟨l, hok, hkeep⟩ := ih (fun hmm => h (List.mem_cons_of_mem m hmm))
    rw [AIAdapter.vMcqList, if_neg hm]
    by_cases hk : AIAdapter.mcqKeep m
    · refine ⟨AIAdapter.mcqOf m :: l, by rw [if_pos hk, hok], ?_⟩
      intro m' hm' hk'
      rcases List.mem_cons.mp hm' with rfl | hmr
      · exact List.mem_cons_self _ _
      · exact List.mem_cons_of_mem _ (hkeep m' hmr hk')
    · refine ⟨l, by rw [if_neg hk]; exact hok, ?_⟩
      intro m' hm' hk'
      rcases List.mem_cons.mp hm' with rfl | hmr
      · exact absurd hk' hk
      · exact hkeep m' hmr hk'

/-- The flashcards validation stage succeeds whenever a well-formed
`flashcards` field has no `null` elements (or is not an array at all). -/
theorem flashStage_ok (parsed : Json)
    (hfl : ∀ fs, jGet parsed "flashcards" = some (.arr fs) →
      Json.null ∉ fs) :
    ∃ flash, (match jGet parsed "flashcards" with
      | some (.arr fs) => AIAdapter.vFlashList fs
      | _ => Except.ok []) = .ok flash := by
  rcases harf : jGet parsed "flashcards" with _ | jf
  · exact ⟨[], rfl⟩
  · rcases jf with _ | b | q | s | fs | fl
    · exact ⟨[], rfl⟩
    · exact ⟨[], rfl⟩
    · exact ⟨[], rfl⟩
    · exact ⟨[], rfl⟩
    · obtain ⟨l, hok, _⟩ := vFlashList_ok fs (hfl fs harf)
      exact ⟨l, hok⟩
    · exact ⟨[], rfl⟩

/-- The flashcards component of the validated result, independent of the
later arrays: with a well-formed flashcards field it is the ok-list of the
flashcard validator. -/
theorem parseValidate_flashcards (parsed : Json) (fs : List Json)
    (harr : jGet parsed "flashcards" = some (.arr fs)) (l : List Flashcard0)
    (hok : AIAdapter.vFlashList fs = .ok l) :
    (AIAdapter.parseValidate parsed).flashcards = l := by
  unfold AIAdapter.parseValidate
  simp only [harr, hok]
  rcases hmc : (match jGet parsed "mcqs" with
    | some (.arr ms) => AIAdapter.vMcqList ms
    | _ => Except.ok []) with e | mcqs
  · rw [hmc]
  · rw [hmc]
    rcases hfi : (match jGet parsed "fillBlanks" with
      | some (.arr l) => AIAdapter.vFillList l
      | _ => Except.ok []) with e | fills
    · rw [hfi]
    · rw [hfi]
      rcases hsh : (match jGet parsed "shortAnswers" with
        | some (.arr l) => AIAdapter.vShortList l
        | _ => Except.ok []) with e | shorts
      · rw [hsh]
      · rw [hsh]

/-- C4: the response validator never throws (it is a total function), and:
a response with no brace-delimited JSON candidate — in particular
`"not json at all"` — or whose candidate `JSON.parse` rejects yields the
all-empty result; on a parsed object with a well-formed `flashcards` array
the kept flashcards are exactly those with truthy `question` and `answer`
(the rest are dropped); an mcq entry with a truthy `question` and an
options array of length ≥ 2 is kept, and its missing `correctIndex`
coerces to 0 and missing `explanation` to `""`. -/
theorem c4_parse_robustness (pf : String → Option Json) :
    AIAdapter.parseAIResponse pf "not json at all" = emptyGC ∧
    (∀ resp, AIAdapter.extractJsonCandidate resp = none →
      AIAdapter.parseAIResponse pf resp = emptyGC) ∧
    (∀ resp m, AIAdapter.extractJsonCandidate resp = some m →
      pf m = none → AIAdapter.parseAIResponse pf resp = emptyGC) ∧
    (∀ resp m parsed fs, AIAdapter.extractJsonCandidate resp = some m →
      pf m = some parsed → jGet parsed "flashcards" = some (.arr fs) →
      Json.null ∉ fs →
      ∀ fc, fc ∈ (AIAdapter.parseAIResponse pf resp).flashcards ↔
        ∃ f ∈ fs, AIAdapter.flashKeep f = true ∧
          fc = AIAdapter.flashOf f) ∧
    (∀ resp m parsed ms mq, AIAdapter.extractJsonCandidate resp = some m →
      pf m = some parsed → jGet parsed "mcqs" = some (.arr ms) →
      Json.null ∉ ms →
      (∀ fs, jGet parsed "flashcards" = some (.arr fs) → Json.null ∉ fs) →
      mq ∈ ms → AIAdapter.mcqKeep mq = true →
      AIAdapter.mcqOf mq ∈ (AIAdapter.parseAIResponse pf resp).mcqs) ∧
    (∀ mq, jGet mq "correctIndex" = none → jGet mq "explanation" = none →
      (AIAdapter.mcqOf mq).correctIndex = Json.num 0 ∧
        (AIAdapter.mcqOf mq).explanation = Json.str "" ∧
        (AIAdapter.mcqOf mq).options = jArrD (jGet mq "options")) := by
  have hnj : AIAdapter.extractJsonCandidate "not json at all" = none := by
    decide
  refine ⟨?_, ?_, ?_, ?_, ?_, ?_⟩
  · unfold AIAdapter.parseAIResponse
    simp only [hnj]
  · intro resp hnone
    unfold AIAdapter.parseAIResponse
    simp only [hnone]
  · intro resp m hsome hpf
    unfold AIAdapter.parseAIResponse
    simp only [hsome, hpf]
  · intro resp m parsed fs hsome hpf harr hnn fc
    unfold AIAdapter.parseAIResponse
    simp only [hsome, hpf]
    obtain ⟨l, hok, hiff⟩ := vFlashList_ok fs hnn
    rw [parseValidate_flashcards parsed fs harr l hok]
    exact hiff fc
  · intro resp m parsed ms mq hsome hpf harr hnn hfl hmem hk
    unfold AIAdapter.parseAIResponse
    simp only [hsome, hpf]
    unfold AIAdapter.parseValidate
    obtain ⟨flash, hfr⟩ := flashStage_ok parsed hfl
    obtain ⟨l, hok, hkeep⟩ := vMcqList_ok ms hnn
    simp only [hfr, harr, hok]
    have hin := hkeep mq hmem hk
    rcases hfi : (match jGet parsed "fillBlanks" with
      | some (.arr l) => AIAdapter.vFillList l
      | _ => Except.ok []) with e | fills
    · rw [hfi]
      exact hin
    · rw [hfi]
      rcases hsh : (match jGet parsed "shortAnswers" with
        | some (.arr l) => AIAdapter.vShortList l
        | _ => Except.ok []) with e | shorts
      · rw [hsh]
        exact hin
      · rw [hsh]
        exact hin
  · intro mq hci hex
    unfold AIAdapter.mcqOf
    rw [hci, hex]
    exact ⟨rfl, rfl, rfl⟩

/-- C4 (witness): the two-character response `"{}"` has a brace candidate,
so the abstract-parse-failure conjunct applies and gives the all-empty
result. -/
theorem c4_parse_robustness_witness :
    AIAdapter.parseAIResponse (fun _ => none) "\x7b\x7d" = emptyGC :=
  (c4_parse_robustness (fun _ => none)).2.2.1 "\x7b\x7d" "\x7b\x7d"
    (by decide) rfl

/-! ## Study-bank aggregation lemmas (C6, C7, C10) -/

/-- `findIndex` on a list ending in the one matching bank. -/
theorem findIdx?_concat_self (l : List StudyBank) (b : StudyBank)
    (p : StudyBank → Bool) (hl : ∀ x ∈ l, p x = false) (hb : p b = true) :
    (l ++ [b]).findIdx? p = some l.length := by
  induction l with
  | nil => simp [List.findIdx?_cons, hb]
  | cons x l ih =>
    have hx := hl x (List.mem_cons_self x l)
    have ih' := ih (fun y hy => hl y (List.mem_cons_of_mem x hy))
    simp [List.findIdx?_cons, hx, List.findIdx?_succ, ih']

/-- Updating the last element of `l ++ [b]`. -/
theorem set_concat_self (l : List StudyBank) (b b' : StudyBank) :
    (l ++ [b]).set l.length b' = l ++ [b'] := by
  induction l with
  | nil => rfl
  | cons x l ih => simp [List.set, ih]

/-- Reading the last element of `l ++ [b]`. -/
theorem get?_concat_self (l : List StudyBank) (b : StudyBank) :
    (l ++ [b]).get? l.length = some b := by
  induction l with
  | nil => rfl
  | cons x l ih => simp [ih]

/-- `appendToBank` keeps the bank id. -/
theorem appendToBank_id (gid : Nat → String) (b : StudyBank) (j : Nat)
    (r : ChunkResult) : (appendToBank gid b j r).id = b.id := rfl

/-- `iterBank` keeps the bank id. -/
theorem iterBank_id (gid : Nat → Nat → String) (r : Nat → ChunkResult)
    (bank : StudyBank) : ∀ k, (iterBank gid r bank k).id = bank.id
  | 0 => rfl
  | k + 1 => iterBank_id gid r bank k

/-- After `k ≥ 1` appends for chunk indices `0 .. k-1`, the bank's
`processedChunks` is `k`; a freshly created bank starts at 0. -/
theorem iterBank_processed (gid : Nat → Nat → String)
    (r : Nat → ChunkResult) (bank : StudyBank) :
    ∀ k, (iterBank gid r bank k).processedChunks =
      if k = 0 then bank.processedChunks else k
  | 0 => rfl
  | k + 1 => by simp [iterBank, appendToBank]

/-- All items of a bank come from chunks below `n`. -/
def bankItemsBelow (b : StudyBank) (n : Nat) : Prop :=
  (∀ f ∈ b.flashcards, f.chunkIndex < n) ∧
    (∀ m ∈ b.mcqs, m.chunkIndex < n) ∧
    (∀ f ∈ b.fillBlanks, f.chunkIndex < n) ∧
    (∀ s ∈ b.shortAnswers, s.chunkIndex < n)

/-- Appending a chunk with index below `n` preserves the item bound. -/
theorem appendToBank_items (gid : Nat → String) (b : StudyBank) (j : Nat)
    (r : ChunkResult) (n : Nat) (hb : bankItemsBelow b n) (hj : j < n) :
    bankItemsBelow (appendToBank gid b j r) n := by
  obtain ⟨h1, h2, h3, h4⟩ := hb
  refine ⟨?_, ?_, ?_, ?_⟩ <;> intro x hx <;>
    simp only [appendToBank, List.mem_append] at hx
  · rcases hx with hx | hx
    · exact h1 x hx
    · obtain ⟨p, _, rfl⟩ := List.mem_map.mp hx
      exact hj
  · rcases hx with hx | hx
    · exact h2 x hx
    · obtain ⟨p, _, rfl⟩ := List.mem_map.mp hx
      exact hj
  · rcases hx with hx | hx
    · exact h3 x hx
    · obtain ⟨p, _, rfl⟩ := List.mem_map.mp hx
      exact hj
  · rcases hx with hx | hx
    · exact h4 x hx
    · obtain ⟨p, _, rfl⟩ := List.mem_map.mp hx
      exact hj

/-- A run of appends with indices `0 .. k-1 < n` preserves the bound. -/
theorem iterBank_items (gid : Nat → Nat → String) (r : Nat → ChunkResult)
    (bank : StudyBank) (n : Nat) (hb : bankItemsBelow bank n) :
    ∀ k, k ≤ n → bankItemsBelow (iterBank gid r bank k) n
  | 0, _ => hb
  | k + 1, hk =>
    appendToBank_items _ _ _ _ _
      (iterBank_items gid r bank n hb k (by omega)) (by omega)

/-- The state after `ADD_BANK` of a fresh bank and `k` sequential appends:
the bank list is the original list with the iterated bank at the end. -/
theorem appendRun_banks (gid : Nat → Nat → String) (gid0 : Nat → String)
    (resultsFor : Nat → ChunkResult) (s0 : StudyState) (bank : StudyBank)
    (bid : String) (hbid : bank.id = bid)
    (hid : ∀ x ∈ s0.studyBanks, x.id ≠ bank.id) :
    ∀ k, (appendRun gid bid resultsFor
        (studyReducer gid0 s0 (.addBank bank)) k).studyBanks =
      s0.studyBanks ++ [iterBank gid resultsFor bank k] := by
  intro k
  induction k with
  | zero => rfl
  | succ k ih =>
    rw [appendRun]
    generalize hsa : studyReducer gid0 s0 (.addBank bank) = sAdd at ih ⊢
    simp only [studyReducer]
    rw [ih]
    have hfi : (s0.studyBanks ++ [iterBank gid resultsFor bank k]).findIdx?
        (fun b => b.id = bid) = some s0.studyBanks.length := by
      apply findIdx?_concat_self
      · intro x hx
        rw [← hbid]
        simp [hid x hx]
      · simp [iterBank_id, hbid]
    have hg := get?_concat_self s0.studyBanks (iterBank gid resultsFor bank k)
    simp only [hfi, hg]
    rw [set_concat_self]
    rfl

/-- C6: creating a bank with `totalChunks` and appending results for chunk
indices `0 .. N-1` in order (into a state with no bank of that id) leaves,
at every step `k ≤ N ≤ totalChunks`, the bank present with
`processedChunks = k ≤ totalChunks` and every item's `chunkIndex <
totalChunks`; in particular after all `N` appends `processedChunks = N`,
and `processedChunks` never exceeds `totalChunks` during the run. -/
theorem c6_bank_invariant (s0 : StudyState) (bankId fileName createdAt : String)
    (totalChunks : Nat) (resultsFor : Nat → ChunkResult)
    (gid : Nat → Nat → String) (gid0 : Nat → String) (N : Nat)
    (hid : ∀ b ∈ s0.studyBanks,
      b.id ≠ (createStudyBankRecord bankId fileName createdAt totalChunks).id)
    (hN : N ≤ totalChunks) :
    ∀ k, k ≤ N →
      ∃ b ∈ (appendRun gid bankId resultsFor
          (studyReducer gid0 s0
            (.addBank (createStudyBankRecord bankId fileName createdAt
              totalChunks))) k).studyBanks,
        b.id = bankId ∧ b.processedChunks = k ∧
          b.processedChunks ≤ totalChunks ∧
          (∀ f ∈ b.flashcards, f.chunkIndex < totalChunks) ∧
          (∀ m ∈ b.mcqs, m.chunkIndex < totalChunks) ∧
          (∀ f ∈ b.fillBlanks, f.chunkIndex < totalChunks) ∧
          (∀ s ∈ b.shortAnswers, s.chunkIndex < totalChunks) := by
  intro k hk
  set bank := createStudyBankRecord bankId fileName createdAt totalChunks
    with hbank
  have hbanks := appendRun_banks gid gid0 resultsFor s0 bank bankId rfl hid k
  rw [hbanks]
  refine ⟨iterBank gid resultsFor bank k,
    List.mem_append_right _ (List.mem_singleton.mpr rfl), ?_, ?_, ?_, ?_⟩
  · rw [iterBank_id, hbank]
    rfl
  · rw [iterBank_processed]
    rcases Nat.eq_zero_or_pos k with rfl | hkpos
    · rfl
    · rw [if_neg (by omega)]
  · rw [iterBank_processed]
    rcases Nat.eq_zero_or_pos k with rfl | hkpos
    · rw [hbank]
      simp [createStudyBankRecord]
    · rw [if_neg (by omega)]
      omega
  · have hitems := iterBank_items gid resultsFor bank totalChunks
      (by exact ⟨by simp [hbank, createStudyBankRecord],
        by simp [hbank, createStudyBankRecord],
        by simp [hbank, createStudyBankRecord],
        by simp [hbank, createStudyBankRecord]⟩) k (by omega)
    exact ⟨hitems.1, hitems.2.1, hitems.2.2.1, hitems.2.2.2⟩

/-- C6 (witness): one append into an initially empty state, with
`totalChunks = 2`. -/
theorem c6_bank_invariant_witness :
    (∀ b ∈ (⟨[], none, idleStatus, false⟩ : StudyState).studyBanks,
        b.id ≠ (createStudyBankRecord "b1" "f.pdf" "t0" 2).id) ∧
      1 ≤ 2 ∧ 1 ≤ 1 ∧
      ∃ b ∈ (appendRun (fun _ _ => "i") "b1" (fun _ => emptyGC)
          (studyReducer (fun _ => "i") ⟨[], none, idleStatus, false⟩
            (.addBank (createStudyBankRecord "b1" "f.pdf" "t0" 2))) 1).studyBanks,
        b.id = "b1" ∧ b.processedChunks = 1 ∧ b.processedChunks ≤ 2 ∧
          (∀ f ∈ b.flashcards, f.chunkIndex < 2) ∧
          (∀ m ∈ b.mcqs, m.chunkIndex < 2) ∧
          (∀ f ∈ b.fillBlanks, f.chunkIndex < 2) ∧
          (∀ s ∈ b.shortAnswers, s.chunkIndex < 2) :=
  ⟨by simp, by omega, by omega,
    c6_bank_invariant ⟨[], none, idleStatus, false⟩ "b1" "f.pdf" "t0" 2
      (fun _ => emptyGC) (fun _ _ => "i") (fun _ => "i") 1 (by simp)
      (by omega) 1 (by omega)⟩

/-- C7: reload recovery.  The synchronous fast-path load maps every
persisted bank through the `isProcessing := false` reset (so a bank
persisted with the flag set is present with it cleared); every bank of the
state after the asynchronous durable-store step also has the flag cleared,
and when the durable store returns more banks they are exactly the cleaned
durable banks. -/
theorem c7_reload_clears_processing :
    (∀ persisted : List StudyBank,
      (loadInitialState persisted).studyBanks =
        persisted.map clearProcessing) ∧
    (∀ persisted : List StudyBank,
      ∀ b ∈ (loadInitialState persisted).studyBanks,
        b.isProcessing = false) ∧
    (∀ (gid : Nat → String) (persisted asyncBanks : List StudyBank),
      ∀ b ∈ (loadAsyncStep gid (loadInitialState persisted)
          asyncBanks).studyBanks,
        b.isProcessing = false) ∧
    (∀ (gid : Nat → String) (persisted asyncBanks : List StudyBank),
      (loadInitialState persisted).studyBanks.length < asyncBanks.length →
      (loadAsyncStep gid (loadInitialState persisted) asyncBanks).studyBanks =
        asyncBanks.map clearProcessing) := by
  have hmem : ∀ l : List StudyBank, ∀ b ∈ l.map clearProcessing,
      b.isProcessing = false := by
    intro l b hb
    obtain ⟨x, _, rfl⟩ := List.mem_map.mp hb
    rfl
  refine ⟨fun persisted => rfl, ?_, ?_, ?_⟩
  · intro persisted b hb
    exact hmem persisted b hb
  · intro gid persisted asyncBanks b hb
    unfold loadAsyncStep at hb
    by_cases hlen :
        (loadInitialState persisted).studyBanks.length < asyncBanks.length
    · rw [if_pos hlen] at hb
      exact hmem asyncBanks b hb
    · rw [if_neg hlen] at hb
      exact hmem persisted b hb
  · intro gid persisted asyncBanks hlen
    unfold loadAsyncStep
    rw [if_pos hlen]
    rfl

/-- C7 (witness): a single bank persisted mid-processing
(`isProcessing = true`) loads with the flag cleared, on both paths. -/
theorem c7_reload_clears_processing_witness :
    (loadInitialState [createStudyBankRecord "b1" "f.pdf" "t0" 3]).studyBanks =
        [createStudyBankRecord "b1" "f.pdf" "t0" 3].map clearProcessing ∧
      (clearProcessing (createStudyBankRecord "b1" "f.pdf" "t0" 3)
          ∈ (loadInitialState
            [createStudyBankRecord "b1" "f.pdf" "t0" 3]).studyBanks →
        (clearProcessing
            (createStudyBankRecord "b1" "f.pdf" "t0" 3)).isProcessing =
          false) :=
  ⟨c7_reload_clears_processing.1 [createStudyBankRecord "b1" "f.pdf" "t0" 3],
    c7_reload_clears_processing.2.1 [createStudyBankRecord "b1" "f.pdf" "t0" 3]
      (clearProcessing (createStudyBankRecord "b1" "f.pdf" "t0" 3))⟩

/-- C10: `APPEND_CHUNK_RESULTS` sets the targeted bank's `processedChunks`
unconditionally to `chunkIndex + 1` (an overwrite, not an increment):
appending a lower chunk index after a higher one strictly decreases
`processedChunks`; at the reducer level, the found bank is replaced by its
`appendToBank` update. -/
theorem c10_processed_overwrite :
    (∀ (gid : Nat → String) (b : StudyBank) (j : Nat) (r : ChunkResult),
      (appendToBank gid b j r).processedChunks = j + 1) ∧
    (∀ (gid1 gid2 : Nat → String) (b : StudyBank) (i j : Nat)
        (r1 r2 : ChunkResult), i < j →
      (appendToBank gid2 (appendToBank gid1 b j r1) i r2).processedChunks <
        (appendToBank gid1 b j r1).processedChunks) ∧
    (∀ (gid : Nat → String) (s : StudyState) (bankId : String) (j : Nat)
        (r : ChunkResult) (i : Nat) (bank : StudyBank),
      s.studyBanks.findIdx? (fun x => x.id = bankId) = some i →
      s.studyBanks.get? i = some bank →
      (studyReducer gid s (.appendChunkResults bankId j r)).studyBanks =
        s.studyBanks.set i (appendToBank gid bank j r)) := by
  refine ⟨fun gid b j r => rfl, ?_, ?_⟩
  · intro gid1 gid2 b i j r1 r2 hij
    simp only [appendToBank]
    omega
  · intro gid s bankId j r i bank hfind hget
    simp only [studyReducer, hfind, hget]

/-! ## Short-chunk behaviour (C5) -/

/-- C5 (counterexample): the 44-character all-digit chunk is below the
~50-character threshold, yet the `processChunk` of `aiProcessor.ts` — the
one `FileUpload` imports — returns a non-empty result (its local generator
makes flashcards from the digit sentence) instead of an empty
`ChunkResult`. -/
theorem c5_short_chunk_counterexample :
    (jsTrim digitsShort).length < 50 ∧
      (AIProcessor.processChunk "" (fun _ => Except.error "offline")
          (fun _ => none) (fun _ => 0) digitsShort 0 1).flashcards ≠ [] := by
  constructor
  · decide
  · decide

/-- C5 (amended): for every chunk whose trimmed text length is below 50,
the adapter-layer `processChunk` (`aiAdapter.ts`) skips generation (the
result is the same for every provider behaviour) and returns an empty
`ChunkResult`; the processor-layer `processChunk` (`aiProcessor.ts`, the
one wired into `FileUpload`) instead skips the provider call below 100
trimmed characters but returns the local generator's content, which may be
non-empty. -/
theorem c5_short_chunk_behaviour :
    (∀ (ui : String) (p : AIAdapter.Provider)
        (pf : String → Option Json) (rs : Nat → ℚ) (text : String)
        (i n : Nat),
      (jsTrim text).length < 50 →
      AIAdapter.processChunk ui p pf rs text i n = emptyGC) ∧
    (∀ (ui : String) (gemini : String → Except String String)
        (pf : String → Option Json) (rs : Nat → ℚ) (text : String)
        (i n : Nat),
      (jsTrim text).length < 100 →
      AIProcessor.processChunk ui gemini pf rs text i n =
        AIProcessor.generateLocalContent rs text) := by
  constructor
  · intro ui p pf rs text i n hlen
    unfold AIAdapter.processChunk
    rw [if_pos hlen]
  · intro ui gemini pf rs text i n hlen
    unfold AIProcessor.processChunk
    rw [if_pos hlen]

/-- C5 (witness for the amended claim) at a two-character chunk: the
adapter returns the empty result, the processor its local content. -/
theorem c5_short_chunk_behaviour_witness :
    (jsTrim "ab").length < 50 ∧
      AIAdapter.processChunk "" ⟨true, fun _ => Except.ok "x"⟩
          (fun _ => none) (fun _ => 0) "ab" 0 1 = emptyGC ∧
      AIProcessor.processChunk "" (fun _ => Except.ok "x") (fun _ => none)
          (fun _ => 0) "ab" 0 1 =
        AIProcessor.generateLocalContent (fun _ => 0) "ab" :=
  ⟨by decide,
    c5_short_chunk_behaviour.1 "" ⟨true, fun _ => Except.ok "x"⟩
      (fun _ => none) (fun _ => 0) "ab" 0 1 (by decide),
    c5_short_chunk_behaviour.2 "" (fun _ => Except.ok "x") (fun _ => none)
      (fun _ => 0) "ab" 0 1 (by decide)⟩

/-! ## Persistence round-trip lemmas (C8) -/

/-- Putting banks with fresh, pairwise-distinct ids into a store appends
them in order. -/
theorem foldl_idbPut_of_nodup :
    ∀ (l acc : List StudyBank),
      (∀ b ∈ l, ∀ a ∈ acc, a.id ≠ b.id) →
      (l.map (fun b => b.id)).Nodup →
      List.foldl Storage.idbPut acc l = acc ++ l := by
  intro l
  induction l with
  | nil => intro acc _ _; simp
  | cons b l ih =>
    intro acc hfresh hnd
    rw [List.foldl_cons]
    have hput : Storage.idbPut acc b = acc ++ [b] := by
      unfold Storage.idbPut
      have hna : ¬(acc.any (fun x => x.id = b.id) = true) := by
        rw [List.any_eq_true]
        rintro ⟨a, ha, hab⟩
        exact hfresh b (List.mem_cons_self b l) a ha (by simpa using hab)
      rw [if_neg hna]
    rw [hput]
    rw [List.map_cons, List.nodup_cons] at hnd
    have := ih (acc ++ [b]) ?_ hnd.2
    · rw [this, List.append_assoc]
      rfl
    · intro x hx a ha
      rcases List.mem_append.mp ha with ha | ha
      · exact hfresh x (List.mem_cons_of_mem b hx) a ha
      · rcases List.mem_singleton.mp ha with rfl
        intro hax
        exact hnd.1 (hax ▸ List.mem_map_of_mem (fun b => b.id) hx)

/-- C8: for every collection of banks with (per the data model) pairwise
distinct ids and every prior storage state, `saveStudyBanks` followed by
`loadStudyBanks` returns a permutation of the saved collection — equal to
it by id and content — on the success path of both backends. -/
theorem c8_persistence_roundtrip (banks : List StudyBank)
    (st : Storage.StorageSt)
    (hids : (banks.map (fun b => b.id)).Nodup) :
    (Storage.loadStudyBanks (Storage.saveStudyBanks banks st)).1.Perm
      banks := by
  have hidb : (Storage.saveStudyBanks banks st).idb = banks := by
    unfold Storage.saveStudyBanks Storage.saveToLocalStorage
      Storage.saveToIndexedDB
    simpa using foldl_idbPut_of_nodup banks [] (by simp) hids
  have hls : (Storage.saveStudyBanks banks st).ls = some banks := rfl
  unfold Storage.loadStudyBanks Storage.loadFromIndexedDB
    Storage.loadFromLocalStorage
  rw [hidb, hls]
  rcases banks with _ | ⟨b, bs⟩
  · simp
  · simp

/-- C8 (witness): two banks with distinct ids round-trip from the empty
storage state. -/
theorem c8_persistence_roundtrip_witness :
    (([createStudyBankRecord "b1" "f.pdf" "t0" 1,
        createStudyBankRecord "b2" "g.pdf" "t1" 2].map
          (fun b => b.id)).Nodup) ∧
      (Storage.loadStudyBanks (Storage.saveStudyBanks
          [createStudyBankRecord "b1" "f.pdf" "t0" 1,
           createStudyBankRecord "b2" "g.pdf" "t1" 2] ⟨[], none⟩)).1.Perm
        [createStudyBankRecord "b1" "f.pdf" "t0" 1,
         createStudyBankRecord "b2" "g.pdf" "t1" 2] :=
  ⟨by decide,
    c8_persistence_roundtrip
      [createStudyBankRecord "b1" "f.pdf" "t0" 1,
       createStudyBankRecord "b2" "g.pdf" "t1" 2] ⟨[], none⟩ (by decide)⟩

/-- C10 (witness): on a one-bank state, appending chunk 4 and then chunk 0
drops `processedChunks` from 5 to 1. -/
theorem c10_processed_overwrite_witness :
    0 < 4 ∧
      (appendToBank (fun _ => "i")
          (appendToBank (fun _ => "i")
            (createStudyBankRecord "b1" "f.pdf" "t0" 9) 4 emptyGC)
          0 emptyGC).processedChunks <
        (appendToBank (fun _ => "i")
          (createStudyBankRecord "b1" "f.pdf" "t0" 9) 4 emptyGC).processedChunks :=
  ⟨by omega,
    c10_processed_overwrite.2.1 (fun _ => "i") (fun _ => "i")
      (createStudyBankRecord "b1" "f.pdf" "t0" 9) 0 4 emptyGC emptyGC
      (by omega)⟩

end StudySync
